import Mathlib

/-!
# Menger viewer: input mapper, scene state, export and frame scheduler

A shallow embedding of `src/main.cc` and `src/camera.h`.

Conventions of the embedding.

* C `int` values (keys, actions, modifier masks, mouse buttons) are `Int`.
* `float` and `double` values are rationals (`ℚ`).  Where the source converts
  a `double` to a `float`, or computes in `double`, the value is rounded by
  `toFloat` resp. `toDouble` (IEEE 754 round to nearest, ties to even).  The
  other arithmetic of the source is exact on the values it meets: the
  tessellation levels only ever hold whole numbers from 1 to 50, and the
  ocean grid coordinates are multiples of 0.5 between -20 and 20.
* `glm::uvec3` components are `Nat`; arithmetic on them is reduced modulo
  `2 ^ 32` where the source computes in `unsigned int`.
* The file-scope globals of `main.cc` are the fields of `World`; a callback
  is a function `World → World`.
* Calls into code that is not part of the available sources (the bodies of
  the `Camera` methods, the `Menger` class, GLFW) are recorded, in order,
  in the `calls` field, so that "invokes exactly once" can be stated.
-/

namespace Menger

/-! ## Constants of the GLFW / GL headers -/

def GLFW_RELEASE : Int := 0
def GLFW_PRESS : Int := 1
def GLFW_REPEAT : Int := 2

def GLFW_KEY_COMMA : Int := 44
def GLFW_KEY_MINUS : Int := 45
def GLFW_KEY_PERIOD : Int := 46
def GLFW_KEY_0 : Int := 48
def GLFW_KEY_1 : Int := 49
def GLFW_KEY_2 : Int := 50
def GLFW_KEY_3 : Int := 51
def GLFW_KEY_4 : Int := 52
def GLFW_KEY_EQUAL : Int := 61
def GLFW_KEY_A : Int := 65
def GLFW_KEY_C : Int := 67
def GLFW_KEY_D : Int := 68
def GLFW_KEY_F : Int := 70
def GLFW_KEY_S : Int := 83
def GLFW_KEY_W : Int := 87
def GLFW_KEY_ESCAPE : Int := 256
def GLFW_KEY_RIGHT : Int := 262
def GLFW_KEY_LEFT : Int := 263
def GLFW_KEY_DOWN : Int := 264
def GLFW_KEY_UP : Int := 265

def GLFW_MOD_CONTROL : Int := 2

def GLFW_MOUSE_BUTTON_LEFT : Int := 0
def GLFW_MOUSE_BUTTON_RIGHT : Int := 1
def GLFW_MOUSE_BUTTON_MIDDLE : Int := 2

/-! ## Vectors -/

/-- The type `glm::vec3`. -/
structure vec3 where
  x : ℚ
  y : ℚ
  z : ℚ
deriving DecidableEq

/-- The type `glm::vec4`. -/
structure vec4 where
  x : ℚ
  y : ℚ
  z : ℚ
  w : ℚ
deriving DecidableEq

/-- The type `glm::uvec3`: three `unsigned int` components. -/
structure uvec3 where
  x : Nat
  y : Nat
  z : Nat
deriving DecidableEq

/-! ## Camera (camera.h) -/

/-- The data members of `class Camera`, with their default member
initialisers. -/
structure Camera where
  last_y : ℚ := 0
  last_x : ℚ := 0
  fps : Bool := true
  camera_distance_ : ℚ := 3
  look_ : vec3 := ⟨0, 0, -1⟩
  up_ : vec3 := ⟨0, 1, 0⟩
  eye_ : vec3 := ⟨0, 0, camera_distance_⟩
deriving DecidableEq

/-- The member functions of `Camera` that `main.cc` calls.  `camera.h` only
declares them; their bodies are not part of the available sources, so the
callbacks are parametrised by an arbitrary implementation. -/
structure CameraMethods where
  strafe_tangent : Int → Camera → Camera
  strafe_up : Int → Camera → Camera
  strafe_forward : Int → Camera → Camera
  zoom : Int → Camera → Camera
  roll : Int → Camera → Camera
  rotate : ℚ → ℚ → Camera → Camera

/-! ## Mesh provider -/

/-- Modelled from the spec: the `Menger` class (`menger.h` is included by
`main.cc` but is not part of the available sources).  The provider holds a
nesting level and a dirty flag. -/
structure Provider where
  nesting_level_ : Int
  dirty_ : Bool
deriving DecidableEq

/-- Modelled from the spec: `Menger::set_nesting_level`, which stores the
level and marks the provider dirty. -/
def Provider.set_nesting_level (level : Int) (m : Provider) : Provider :=
  { m with nesting_level_ := level, dirty_ := true }

/-- Modelled from the spec: `Menger::is_dirty`, the dirty flag. -/
def Provider.is_dirty (m : Provider) : Bool := m.dirty_

/-- Modelled from the spec: `Menger::set_clean`, which clears the dirty
flag. -/
def Provider.set_clean (m : Provider) : Provider :=
  { m with dirty_ := false }

/-! ## Global state of main.cc -/

/-- A call that leaves `main.cc`, as recorded in `World.calls`. -/
inductive Call where
  | strafe_tangent (direction : Int)
  | strafe_up (direction : Int)
  | strafe_forward (direction : Int)
  | zoom (direction : Int)
  | roll (direction : Int)
  | rotate (dx dy : ℚ)
  | set_nesting_level (level : Int)
  | glfwSetWindowShouldClose
deriving DecidableEq

/-- The file-scope variables of `main.cc` that the callbacks read or write,
the close flag of the window, and the record of outgoing calls. -/
structure World where
  g_menger : Option Provider
  g_camera : Camera
  save_obj : Bool
  wireframe : Bool
  toggleFaces : Bool
  tess_level_inner : ℚ
  tess_level_outer : ℚ
  g_current_button : Int
  g_mouse_pressed : Bool
  should_close : Bool
  calls : List Call
deriving DecidableEq

/-- The globals as initialised at program start, with the provider pointer
`g_menger` as given. -/
def initWorld (m : Option Provider) : World :=
  { g_menger := m
    g_camera := {}
    save_obj := false
    wireframe := true
    toggleFaces := true
    tess_level_inner := 3
    tess_level_outer := 3
    g_current_button := 0
    g_mouse_pressed := false
    should_close := false
    calls := [] }

/-- A call of a `Camera` method on `g_camera`: the method is applied and the
call is recorded. -/
def World.camera (w : World) (c : Call) (f : Camera → Camera) : World :=
  { w with g_camera := f w.g_camera, calls := w.calls ++ [c] }

/-- The first `if` / `else if` chain of `KeyCallback`. -/
def keyChain (cam : CameraMethods) (key action mods : Int) (w : World) : World :=
  if key = GLFW_KEY_ESCAPE ∧ action = GLFW_PRESS then
    { w with should_close := true, calls := w.calls ++ [Call.glfwSetWindowShouldClose] }
  else if key = GLFW_KEY_S ∧ mods = GLFW_MOD_CONTROL ∧ action = GLFW_RELEASE then
    { w with save_obj := true }
  else if key = GLFW_KEY_W ∧ action ≠ GLFW_RELEASE then
    w.camera (Call.strafe_forward 1) (cam.strafe_forward 1)
  else if key = GLFW_KEY_S ∧ action ≠ GLFW_RELEASE then
    w.camera (Call.strafe_forward (-1)) (cam.strafe_forward (-1))
  else if key = GLFW_KEY_A ∧ action ≠ GLFW_RELEASE then
    w.camera (Call.strafe_tangent (-1)) (cam.strafe_tangent (-1))
  else if key = GLFW_KEY_D ∧ action ≠ GLFW_RELEASE then
    w.camera (Call.strafe_tangent 1) (cam.strafe_tangent 1)
  else if key = GLFW_KEY_F ∧ mods = GLFW_MOD_CONTROL ∧ action = GLFW_RELEASE then
    { w with toggleFaces := !w.toggleFaces }
  else if key = GLFW_KEY_F ∧ action = GLFW_RELEASE then
    { w with wireframe := !w.wireframe }
  else if key = GLFW_KEY_LEFT ∧ action ≠ GLFW_RELEASE then
    w.camera (Call.roll (-1)) (cam.roll (-1))
  else if key = GLFW_KEY_RIGHT ∧ action ≠ GLFW_RELEASE then
    w.camera (Call.roll 1) (cam.roll 1)
  else if key = GLFW_KEY_DOWN ∧ action ≠ GLFW_RELEASE then
    w.camera (Call.strafe_up (-1)) (cam.strafe_up (-1))
  else if key = GLFW_KEY_UP ∧ action ≠ GLFW_RELEASE then
    w.camera (Call.strafe_up 1) (cam.strafe_up 1)
  else if key = GLFW_KEY_C ∧ action = GLFW_RELEASE then
    { w with g_camera := { w.g_camera with fps := !w.g_camera.fps } }
  else if key = GLFW_KEY_MINUS ∧ action ≠ GLFW_RELEASE then
    if w.tess_level_outer > 1 then
      { w with tess_level_outer := w.tess_level_outer - 1 }
    else w
  else if key = GLFW_KEY_EQUAL ∧ action ≠ GLFW_RELEASE then
    if w.tess_level_outer < 50 then
      { w with tess_level_outer := w.tess_level_outer + 1 }
    else w
  else if key = GLFW_KEY_COMMA ∧ action ≠ GLFW_RELEASE then
    if w.tess_level_inner > 1 then
      { w with tess_level_inner := w.tess_level_inner - 1 }
    else w
  else if key = GLFW_KEY_PERIOD ∧ action ≠ GLFW_RELEASE then
    if w.tess_level_inner < 50 then
      { w with tess_level_inner := w.tess_level_inner + 1 }
    else w
  else w

/-- A call `g_menger->set_nesting_level(level)` on the attached provider `m`. -/
def World.nest (w : World) (m : Provider) (level : Int) : World :=
  { w with g_menger := some (m.set_nesting_level level),
           calls := w.calls ++ [Call.set_nesting_level level] }

/-- The second part of `KeyCallback`: the return when no provider is
attached, then the chain for the keys 0 to 4. -/
def nestingChain (key action : Int) (w : World) : World :=
  match w.g_menger with
  | none => w
  | some m =>
    if key = GLFW_KEY_0 ∧ action ≠ GLFW_RELEASE then w.nest m 0
    else if key = GLFW_KEY_1 ∧ action ≠ GLFW_RELEASE then w.nest m 1
    else if key = GLFW_KEY_2 ∧ action ≠ GLFW_RELEASE then w.nest m 2
    else if key = GLFW_KEY_3 ∧ action ≠ GLFW_RELEASE then w.nest m 3
    else if key = GLFW_KEY_4 ∧ action ≠ GLFW_RELEASE then w.nest m 4
    else w

/-- The function `KeyCallback(window, key, scancode, action, mods)`. -/
def KeyCallback (cam : CameraMethods) (key _scancode action mods : Int) (w : World) : World :=
  nestingChain key action (keyChain cam key action mods w)

/-- A key event as delivered by the window system. -/
structure KeyEvent where
  key : Int
  scancode : Int
  action : Int
  mods : Int
deriving DecidableEq

/-- Delivery of a finite sequence of key events, in order. -/
def runKeys (cam : CameraMethods) (evs : List KeyEvent) (w : World) : World :=
  evs.foldl (fun s e => KeyCallback cam e.key e.scancode e.action e.mods s) w

/-! ## Floating-point conversions -/

/-- Rounding of a rational to the nearest integer, ties to the even one. -/
def roundHalfEven (s : ℚ) : ℤ :=
  if s - ⌊s⌋ < 1 / 2 then ⌊s⌋
  else if 1 / 2 < s - ⌊s⌋ then ⌊s⌋ + 1
  else if ⌊s⌋ % 2 = 0 then ⌊s⌋ else ⌊s⌋ + 1

/-- The binary exponent of the unit in the last place of `q`, in a binary
format with `prec` significant bits and least normal exponent `emin`. -/
def quantumExp (prec : Nat) (emin : Int) (q : ℚ) : Int :=
  max (Int.log 2 |q|) emin - ((prec : Int) - 1)

/-- Rounding to the nearest value of a binary floating-point format with
`prec` significant bits and least normal exponent `emin`, ties to even
(the IEEE 754 default).  The format is taken without an upper bound: a value
beyond the largest finite one, which the hardware turns into an infinity, is
outside this definition. -/
def roundBinary (prec : Nat) (emin : Int) (q : ℚ) : ℚ :=
  (roundHalfEven (q / (2 : ℚ) ^ quantumExp prec emin q) : ℚ)
    * (2 : ℚ) ^ quantumExp prec emin q

/-- The conversion to `float` (binary32: 24 significant bits). -/
def toFloat (q : ℚ) : ℚ := roundBinary 24 (-126) q

/-- The rounding of a result computed in `double` (binary64: 53 significant
bits). -/
def toDouble (q : ℚ) : ℚ := roundBinary 53 (-1022) q

/-! ## Mouse callbacks -/

/-- The function `MouseButtonCallback(window, button, action, mods)`. -/
def MouseButtonCallback (button action _mods : Int) (w : World) : World :=
  { w with g_mouse_pressed := decide (action = GLFW_PRESS), g_current_button := button }

/-- The branch of `MousePosCallback` taken for the right button. -/
def rightDrag (cam : CameraMethods) (mouse_y : ℚ) (w : World) : World :=
  if w.g_camera.last_y > mouse_y then
    w.camera (Call.zoom 1) (cam.zoom 1)
  else if w.g_camera.last_y < mouse_y then
    w.camera (Call.zoom (-1)) (cam.zoom (-1))
  else w

/-- The first statement of the middle-button branch of `MousePosCallback`. -/
def middleDragY (cam : CameraMethods) (mouse_y : ℚ) (w : World) : World :=
  if w.g_camera.last_y > mouse_y then
    w.camera (Call.strafe_up 1) (cam.strafe_up 1)
  else if w.g_camera.last_y < mouse_y then
    w.camera (Call.strafe_up (-1)) (cam.strafe_up (-1))
  else w

/-- The second statement of the middle-button branch of `MousePosCallback`;
it reads `g_camera.last_x` after the first statement has run. -/
def middleDragX (cam : CameraMethods) (mouse_x : ℚ) (w : World) : World :=
  if w.g_camera.last_x > mouse_x then
    w.camera (Call.strafe_tangent (-1)) (cam.strafe_tangent (-1))
  else if w.g_camera.last_x < mouse_x then
    w.camera (Call.strafe_tangent 1) (cam.strafe_tangent 1)
  else w

/-- The function `MousePosCallback(window, mouse_x, mouse_y)`.  The event
position is a `double`; `last_x` and `last_y` are `float`.  A comparison
promotes the `float` to `double`, which is exact.  The differences passed to
`rotate(float, float)` are computed in `double` and then converted to
`float`, and the two assignments at the end convert the position to
`float`. -/
def MousePosCallback (cam : CameraMethods) (mouse_x mouse_y : ℚ) (w : World) : World :=
  if !w.g_mouse_pressed then w
  else
    let w1 :=
      if w.g_current_button = GLFW_MOUSE_BUTTON_LEFT then
        w.camera
          (Call.rotate (toFloat (toDouble (w.g_camera.last_x - mouse_x)))
            (toFloat (toDouble (w.g_camera.last_y - mouse_y))))
          (cam.rotate (toFloat (toDouble (w.g_camera.last_x - mouse_x)))
            (toFloat (toDouble (w.g_camera.last_y - mouse_y))))
      else if w.g_current_button = GLFW_MOUSE_BUTTON_RIGHT then
        rightDrag cam mouse_y w
      else if w.g_current_button = GLFW_MOUSE_BUTTON_MIDDLE then
        middleDragX cam mouse_x (middleDragY cam mouse_y w)
      else w
    { w1 with
      g_camera := { w1.g_camera with last_y := toFloat mouse_y, last_x := toFloat mouse_x } }

/-! ## Export -/

/-- The value of `2 ^ 32`: arithmetic on `unsigned int` is modulo this. -/
def UINT_MOD : Nat := 4294967296

/-- The function `SaveObj(file, vertices, indices)`, as the text it streams
into the file, in order.  `fmt` is the text `operator<<` produces for a
`float` (a library routine); an `unsigned int` is printed in decimal;
`std::endl` writes a newline. -/
def SaveObj (fmt : ℚ → String) (vertices : List vec4) (indices : List uvec3) : String :=
  let f := ""
  let f := vertices.foldl
    (fun f v => f ++ "v " ++ fmt v.x ++ " " ++ fmt v.y ++ " " ++ fmt v.z ++ "\n") f
  let f := indices.foldl
    (fun f i => f ++ "f " ++ toString ((i.x + 1) % UINT_MOD) ++ " "
      ++ toString ((i.y + 1) % UINT_MOD) ++ " " ++ toString ((i.z + 1) % UINT_MOD) ++ "\n") f
  f

/-- The line of the export format for one vertex, as the spec words it:
`v x y z`, newline-terminated. -/
def vertexLine (fmt : ℚ → String) (v : vec4) : String :=
  "v " ++ fmt v.x ++ " " ++ fmt v.y ++ " " ++ fmt v.z ++ "\n"

/-- The line of the export format for one triangle, as the spec words it:
`f a+1 b+1 c+1`, newline-terminated. -/
def faceLine (i : uvec3) : String :=
  "f " ++ toString (i.x + 1) ++ " " ++ toString (i.y + 1) ++ " " ++ toString (i.z + 1) ++ "\n"

/-- The line the code writes for one triangle: the 1-based indices are
computed in `unsigned int`. -/
def faceLineU32 (i : uvec3) : String :=
  "f " ++ toString ((i.x + 1) % UINT_MOD) ++ " " ++ toString ((i.y + 1) % UINT_MOD) ++ " "
    ++ toString ((i.z + 1) % UINT_MOD) ++ "\n"

/-- The concatenation of a list of lines. -/
def joinLines (ls : List String) : String :=
  ls.foldr (fun l acc => l ++ acc) ""

/-- A formatter for the whole-number coordinates of the examples: a whole
number is written as its decimal digits, as `operator<<` does for a `float`
holding a whole number of at most six digits. -/
def fmtWhole (q : ℚ) : String := toString q

/-! ## Frame scheduler (the loop of `main`) -/

/-- An effect of a frame on the outside: the export call with its arguments,
the upload of the solid buffers, and the three draw passes with the scene
uniforms they pass. -/
inductive Output where
  | SaveObj (file : String) (vertices : List vec4) (indices : List uvec3)
  | glBufferData (vertices : List vec4) (indices : List uvec3)
  | drawGeometry (count : Nat)
  | drawFloor (wireframe : Bool) (tess_outer tess_inner : ℚ) (fill : Bool)
  | drawOcean (wireframe : Bool) (tess_outer tess_inner : ℚ) (fill : Bool)
deriving DecidableEq

/-- The state of the frame loop: the globals, the solid mesh buffers
`obj_vertices` / `obj_faces` local to `main`, and the effects so far. -/
structure Session where
  world : World
  obj_vertices : List vec4
  obj_faces : List uvec3
  out : List Output
deriving DecidableEq

/-- The state in which `main` enters its loop for the first time, apart from
the provider, which is as given: empty solid buffers, nothing done yet. -/
def initSession (m : Option Provider) : Session :=
  { world := initWorld m, obj_vertices := [], obj_faces := [], out := [] }

/-- The in/out buffers of `generate_geometry`. -/
abbrev Mesh := List vec4 × List uvec3

/-- The export step: `if (save_obj) { SaveObj(...); save_obj = false; }`. -/
def exportStep (s : Session) : Session :=
  if s.world.save_obj then
    { s with
      out := s.out ++ [Output.SaveObj "geometry.obj" s.obj_vertices s.obj_faces]
      world := { s.world with save_obj := false } }
  else s

/-- The regeneration step: `if (g_menger && g_menger->is_dirty()) { ... }`.
`generate_geometry` is the provider's geometry routine (not part of the
available sources); it receives the two buffers after `clear()`. -/
def regenStep (generate_geometry : Provider → Mesh → Mesh) (s : Session) : Session :=
  match s.world.g_menger with
  | none => s
  | some m =>
    if m.is_dirty then
      let cleared : Mesh := ([], [])
      let g := generate_geometry m cleared
      { s with
        obj_vertices := g.1
        obj_faces := g.2
        world := { s.world with g_menger := some m.set_clean }
        out := s.out ++ [Output.glBufferData g.1 g.2] }
    else s

/-- The three draw passes, in order. -/
def drawStep (s : Session) : Session :=
  { s with
    out := s.out ++
      [ Output.drawGeometry (s.obj_faces.length * 3),
        Output.drawFloor s.world.wireframe s.world.tess_level_outer
          s.world.tess_level_inner s.world.toggleFaces,
        Output.drawOcean s.world.wireframe s.world.tess_level_outer
          s.world.tess_level_inner s.world.toggleFaces ] }

/-- The body of the `while` loop of `main` up to `glfwPollEvents`. -/
def frame (generate_geometry : Provider → Mesh → Mesh) (s : Session) : Session :=
  drawStep (regenStep generate_geometry (exportStep s))

/-- An input event. -/
inductive Event where
  | key (key scancode action mods : Int)
  | cursorPos (x y : ℚ)
  | mouseButton (button action mods : Int)
deriving DecidableEq

/-- Dispatch of an event to its callback. -/
def deliver (cam : CameraMethods) (e : Event) (w : World) : World :=
  match e with
  | Event.key k sc a m => KeyCallback cam k sc a m w
  | Event.cursorPos x y => MousePosCallback cam x y w
  | Event.mouseButton b a m => MouseButtonCallback b a m w

/-- The call `glfwPollEvents()`: the pending events are delivered in order. -/
def pollEvents (cam : CameraMethods) (evs : List Event) (s : Session) : Session :=
  { s with world := evs.foldl (fun w e => deliver cam e w) s.world }

/-- The `while (!glfwWindowShouldClose(window))` loop of `main`; the list
holds, for each iteration, the events pending at its `glfwPollEvents`. -/
def mainLoop (cam : CameraMethods) (generate_geometry : Provider → Mesh → Mesh) :
    List (List Event) → Session → Session
  | [], s => s
  | evs :: rest, s =>
    if s.world.should_close then s
    else mainLoop cam generate_geometry rest (pollEvents cam evs (frame generate_geometry s))

/-- Whether an output is an export call. -/
def Output.isSaveObj : Output → Bool
  | Output.SaveObj _ _ _ => true
  | _ => false

/-- The number of exports performed so far. -/
def Session.exports (s : Session) : Nat := (s.out.filter Output.isSaveObj).length

/-- Whether an event is a key event. -/
def Event.isKey : Event → Bool
  | Event.key _ _ _ _ => true
  | _ => false

/-- Whether an output is an upload of the solid buffers, which happens
exactly when the solid mesh is regenerated. -/
def Output.isUpload : Output → Bool
  | Output.glBufferData _ _ => true
  | _ => false

/-- The number of regenerations performed so far. -/
def Session.uploads (s : Session) : Nat := (s.out.filter Output.isUpload).length

/-! ## Zoom -/

/-- Sum of two vectors. -/
def vec3.add (a b : vec3) : vec3 := ⟨a.x + b.x, a.y + b.y, a.z + b.z⟩

/-- Product of a scalar and a vector. -/
def vec3.scale (k : ℚ) (a : vec3) : vec3 := ⟨k * a.x, k * a.y, k * a.z⟩

/-- Modelled from the spec: `Camera::zoom` (declared in `camera.h`; its body,
in `camera.cc`, is not part of the available sources).  The spec: zoom
"shrinks/grows `distance` (Orbit) or adjusts field-of-view/dolly
(FirstPerson); must not allow `distance` to reach zero or negative".
In FirstPerson mode (`fps`) the eye is dollied along `look` and the orbit
radius is not involved.  In Orbit mode the radius changes by the fixed step
`zoom_speed` against `direction` (zoom in shrinks), the eye being moved
along `look` so that the pivot `eye + distance * look` stays where it is; a
step that would make the radius zero or negative is not taken. -/
def Camera.zoom (zoom_speed : ℚ) (direction : Int) (c : Camera) : Camera :=
  if c.fps then
    { c with eye_ := c.eye_.add (c.look_.scale (zoom_speed * direction)) }
  else
    let d := c.camera_distance_ - zoom_speed * direction
    if 0 < d then
      { c with
        camera_distance_ := d
        eye_ := (c.eye_.add (c.look_.scale c.camera_distance_)).add (c.look_.scale (-d)) }
    else c

/-- A sequence of `zoom` calls, in order. -/
def zooms (zoom_speed : ℚ) (ds : List Int) (c : Camera) : Camera :=
  ds.foldl (fun c d => c.zoom zoom_speed d) c

/-! ## Vector products -/

/-- The function `glm::dot` on `vec3`. -/
def vec3.dot (a b : vec3) : ℚ := a.x * b.x + a.y * b.y + a.z * b.z

/-- The function `glm::cross` on `vec3`. -/
def vec3.cross (a b : vec3) : vec3 :=
  ⟨a.y * b.z - b.y * a.z, a.z * b.x - b.z * a.x, a.x * b.y - b.x * a.y⟩

/-! ## Ocean grid -/

/-- The type `glm::uvec4`: four `unsigned int` components. -/
structure uvec4 where
  x : Nat
  y : Nat
  z : Nat
  w : Nat
deriving DecidableEq

/-- The body of the inner loop of `CreateOcean`, for the loop variables `i`
and `k`, on the two vectors passed by reference.  `offset` is a `uint32_t`
initialised from `vertices.size()`, and the components of the `uvec4` are
computed in `unsigned int`. -/
def oceanCell (i k : Nat) (st : List vec4 × List uvec4) : List vec4 × List uvec4 :=
  let vertices := st.1
  let indices := st.2
  let offset := vertices.length % UINT_MOD
  let vertices := vertices ++ [⟨-20 + 2.5 * (i : ℚ), -2, -20 + 2.5 * (k : ℚ), 1⟩]
  let vertices := vertices ++ [⟨-20 + 2.5 * ((i + 1 : Nat) : ℚ), -2, -20 + 2.5 * (k : ℚ), 1⟩]
  let vertices := vertices ++ [⟨-20 + 2.5 * (i : ℚ), -2, -20 + 2.5 * ((k + 1 : Nat) : ℚ), 1⟩]
  let vertices :=
    vertices ++ [⟨-20 + 2.5 * ((i + 1 : Nat) : ℚ), -2, -20 + 2.5 * ((k + 1 : Nat) : ℚ), 1⟩]
  let indices := indices ++
    [⟨offset, (offset + 1) % UINT_MOD, (offset + 3) % UINT_MOD, (offset + 2) % UINT_MOD⟩]
  (vertices, indices)

/-- The function `CreateOcean(vertices, indices)`: the two loops, each over
0, ..., 15, on the two vectors passed by reference. -/
def CreateOcean (vertices : List vec4) (indices : List uvec4) : List vec4 × List uvec4 :=
  (List.range 16).foldl
    (fun st i => (List.range 16).foldl (fun st k => oceanCell i k st) st)
    (vertices, indices)

/-- The four vertices pushed for the cell (i, k), in the order pushed. -/
def cellVertices (i k : Nat) : List vec4 :=
  [⟨-20 + 2.5 * (i : ℚ), -2, -20 + 2.5 * (k : ℚ), 1⟩,
   ⟨-20 + 2.5 * ((i + 1 : Nat) : ℚ), -2, -20 + 2.5 * (k : ℚ), 1⟩,
   ⟨-20 + 2.5 * (i : ℚ), -2, -20 + 2.5 * ((k + 1 : Nat) : ℚ), 1⟩,
   ⟨-20 + 2.5 * ((i + 1 : Nat) : ℚ), -2, -20 + 2.5 * ((k + 1 : Nat) : ℚ), 1⟩]

/-- The patch written for a cell whose first vertex is pushed when the vertex
list has length `n`, with the arithmetic of the code. -/
def patchAt (n : Nat) : uvec4 :=
  ⟨n % UINT_MOD, (n % UINT_MOD + 1) % UINT_MOD, (n % UINT_MOD + 3) % UINT_MOD,
    (n % UINT_MOD + 2) % UINT_MOD⟩

/-- The patch of a cell as the claim words it: `(offset, offset+1, offset+3,
offset+2)`. -/
def quad (offset : Nat) : uvec4 := ⟨offset, offset + 1, offset + 3, offset + 2⟩

/-- The patches of `c` consecutive cells, the first of which starts at vertex
count `n`. -/
def patchesFrom (n : Nat) : Nat → List uvec4
  | 0 => []
  | c + 1 => patchAt n :: patchesFrom (n + 4) c

/-- The vertices pushed by the inner loop for the row `i`, over the columns
`ks` in order. -/
def rowVertices (i : Nat) : List Nat → List vec4
  | [] => []
  | k :: ks => cellVertices i k ++ rowVertices i ks

/-- The vertices pushed by the outer loop over the rows `rows` in order, each
row running over the columns 0, ..., 15. -/
def gridVertices : List Nat → List vec4
  | [] => []
  | i :: rows => rowVertices i (List.range 16) ++ gridVertices rows

/-! ## Predicates used in the statements -/

/-- A tessellation level that is a whole number between 1 and 50. -/
def levelOK (t : ℚ) : Prop := ∃ n : ℤ, t = n ∧ 1 ≤ n ∧ n ≤ 50

/-- A camera whose methods leave it as it is; used to evaluate the callbacks
on concrete inputs. -/
def idleCamera : CameraMethods :=
  { strafe_tangent := fun _ c => c
    strafe_up := fun _ c => c
    strafe_forward := fun _ c => c
    zoom := fun _ c => c
    roll := fun _ c => c
    rotate := fun _ _ c => c }

/-- The nesting-level keys, each with the level it selects. -/
def nestingKeys : List (Int × Int) :=
  [(GLFW_KEY_0, 0), (GLFW_KEY_1, 1), (GLFW_KEY_2, 2), (GLFW_KEY_3, 3), (GLFW_KEY_4, 4)]

/-- Whether an event is a key event for one of the nesting-level keys. -/
def Event.isNestingKey : Event → Bool
  | Event.key k _ _ _ => decide (k ∈ nestingKeys.map Prod.fst)
  | _ => false

/-- The globals that neither a camera call nor a pointer callback touches:
`v` agrees with `w` on the export flag, the close flag and the provider. -/
def SameScene (w v : World) : Prop :=
  v.save_obj = w.save_obj ∧ v.should_close = w.should_close ∧ v.g_menger = w.g_menger

/-- A press of `key` with no modifier. -/
def keyPress (key : Int) : KeyEvent := ⟨key, 0, GLFW_PRESS, 0⟩

/-! # Theorems -/

/-! ## Key events and the tessellation levels -/

theorem runKeys_cons (cam : CameraMethods) (e : KeyEvent) (es : List KeyEvent) (w : World) :
    runKeys cam (e :: es) w
      = runKeys cam es (KeyCallback cam e.key e.scancode e.action e.mods w) := rfl

theorem levelOK_dec {t : ℚ} (h : levelOK t) (hgt : t > 1) : levelOK (t - 1) := by
  obtain ⟨n, rfl, h1, h2⟩ := h
  refine ⟨n - 1, by push_cast; ring, ?_, by omega⟩
  have : (1 : ℤ) < n := by exact_mod_cast hgt
  omega

theorem levelOK_inc {t : ℚ} (h : levelOK t) (hlt : t < 50) : levelOK (t + 1) := by
  obtain ⟨n, rfl, h1, h2⟩ := h
  refine ⟨n + 1, by push_cast; ring, by omega, ?_⟩
  have : n < 50 := by exact_mod_cast hlt
  omega

theorem nestingChain_scene (key action : Int) (w : World) :
    (nestingChain key action w).tess_level_inner = w.tess_level_inner
    ∧ (nestingChain key action w).tess_level_outer = w.tess_level_outer
    ∧ (nestingChain key action w).save_obj = w.save_obj
    ∧ (nestingChain key action w).wireframe = w.wireframe
    ∧ (nestingChain key action w).toggleFaces = w.toggleFaces
    ∧ (nestingChain key action w).g_camera = w.g_camera
    ∧ (nestingChain key action w).should_close = w.should_close
    ∧ (nestingChain key action w).g_mouse_pressed = w.g_mouse_pressed
    ∧ (nestingChain key action w).g_current_button = w.g_current_button := by
  unfold nestingChain
  cases w.g_menger with
  | none => simp
  | some m => dsimp only; split_ifs <;> simp [World.nest]

theorem ite_elim {α : Type} (P : α → Prop) {c : Prop} [Decidable c] {a b : α}
    (ha : c → P a) (hb : ¬ c → P b) : P (if c then a else b) := by
  by_cases h : c
  · rw [if_pos h]; exact ha h
  · rw [if_neg h]; exact hb h

/-- Case analysis on the first chain of `KeyCallback`: a property holds of
its result as soon as it holds of each of the possible results. -/
theorem keyChain_cases (P : World → Prop) (cam : CameraMethods) (key action mods : Int)
    (w : World)
    (hclose : P { w with should_close := true,
                         calls := w.calls ++ [Call.glfwSetWindowShouldClose] })
    (hsave : P { w with save_obj := true })
    (hcam : ∀ c f, P (w.camera c f))
    (hfaces : P { w with toggleFaces := !w.toggleFaces })
    (hwire : P { w with wireframe := !w.wireframe })
    (hfps : P { w with g_camera := { w.g_camera with fps := !w.g_camera.fps } })
    (hodec : w.tess_level_outer > 1 → P { w with tess_level_outer := w.tess_level_outer - 1 })
    (hoinc : w.tess_level_outer < 50 → P { w with tess_level_outer := w.tess_level_outer + 1 })
    (hidec : w.tess_level_inner > 1 → P { w with tess_level_inner := w.tess_level_inner - 1 })
    (hiinc : w.tess_level_inner < 50 → P { w with tess_level_inner := w.tess_level_inner + 1 })
    (hsame : P w) :
    P (keyChain cam key action mods w) := by
  unfold keyChain
  exact
    ite_elim P (fun _ => hclose) fun _ =>
    ite_elim P (fun _ => hsave) fun _ =>
    ite_elim P (fun _ => hcam _ _) fun _ =>
    ite_elim P (fun _ => hcam _ _) fun _ =>
    ite_elim P (fun _ => hcam _ _) fun _ =>
    ite_elim P (fun _ => hcam _ _) fun _ =>
    ite_elim P (fun _ => hfaces) fun _ =>
    ite_elim P (fun _ => hwire) fun _ =>
    ite_elim P (fun _ => hcam _ _) fun _ =>
    ite_elim P (fun _ => hcam _ _) fun _ =>
    ite_elim P (fun _ => hcam _ _) fun _ =>
    ite_elim P (fun _ => hcam _ _) fun _ =>
    ite_elim P (fun _ => hfps) fun _ =>
    ite_elim P (fun _ => ite_elim P hodec fun _ => hsame) fun _ =>
    ite_elim P (fun _ => ite_elim P hoinc fun _ => hsame) fun _ =>
    ite_elim P (fun _ => ite_elim P hidec fun _ => hsame) fun _ =>
    ite_elim P (fun _ => ite_elim P hiinc fun _ => hsame) fun _ =>
    hsame

theorem keyChain_levelOK (cam : CameraMethods) (key action mods : Int) (w : World)
    (hi : levelOK w.tess_level_inner) (ho : levelOK w.tess_level_outer) :
    levelOK (keyChain cam key action mods w).tess_level_inner
    ∧ levelOK (keyChain cam key action mods w).tess_level_outer :=
  keyChain_cases (fun v => levelOK v.tess_level_inner ∧ levelOK v.tess_level_outer)
    cam key action mods w ⟨hi, ho⟩ ⟨hi, ho⟩ (fun _ _ => ⟨hi, ho⟩) ⟨hi, ho⟩ ⟨hi, ho⟩ ⟨hi, ho⟩
    (fun h => ⟨hi, levelOK_dec ho h⟩) (fun h => ⟨hi, levelOK_inc ho h⟩)
    (fun h => ⟨levelOK_dec hi h, ho⟩) (fun h => ⟨levelOK_inc hi h, ho⟩) ⟨hi, ho⟩

theorem KeyCallback_levelOK (cam : CameraMethods) (key sc action mods : Int) (w : World)
    (hi : levelOK w.tess_level_inner) (ho : levelOK w.tess_level_outer) :
    levelOK (KeyCallback cam key sc action mods w).tess_level_inner
    ∧ levelOK (KeyCallback cam key sc action mods w).tess_level_outer := by
  unfold KeyCallback
  have h := nestingChain_scene key action (keyChain cam key action mods w)
  rw [h.1, h.2.1]
  exact keyChain_levelOK cam key action mods w hi ho

theorem runKeys_levelOK (cam : CameraMethods) (evs : List KeyEvent) :
    ∀ w : World, levelOK w.tess_level_inner → levelOK w.tess_level_outer →
      levelOK (runKeys cam evs w).tess_level_inner
      ∧ levelOK (runKeys cam evs w).tess_level_outer := by
  induction evs with
  | nil => intro w hi ho; exact ⟨hi, ho⟩
  | cons e es ih =>
    intro w hi ho
    rw [runKeys_cons]
    have h := KeyCallback_levelOK cam e.key e.scancode e.action e.mods w hi ho
    exact ih _ h.1 h.2

theorem levelOK_bounds {t : ℚ} (h : levelOK t) : 1 ≤ t ∧ t ≤ 50 := by
  obtain ⟨n, rfl, h1, h2⟩ := h
  exact ⟨by exact_mod_cast h1, by exact_mod_cast h2⟩

theorem KeyCallback_inner (cam : CameraMethods) (key sc action mods : Int) (w : World) :
    (KeyCallback cam key sc action mods w).tess_level_inner
      = (keyChain cam key action mods w).tess_level_inner :=
  (nestingChain_scene key action (keyChain cam key action mods w)).1

theorem KeyCallback_outer (cam : CameraMethods) (key sc action mods : Int) (w : World) :
    (KeyCallback cam key sc action mods w).tess_level_outer
      = (keyChain cam key action mods w).tess_level_outer :=
  (nestingChain_scene key action (keyChain cam key action mods w)).2.1

theorem press_period (cam : CameraMethods) (w : World) (h : w.tess_level_inner < 50) :
    (KeyCallback cam GLFW_KEY_PERIOD 0 GLFW_PRESS 0 w).tess_level_inner
      = w.tess_level_inner + 1 := by
  rw [KeyCallback_inner]
  simp [keyChain, GLFW_KEY_PERIOD, GLFW_KEY_ESCAPE, GLFW_KEY_S, GLFW_KEY_W, GLFW_KEY_A,
    GLFW_KEY_D, GLFW_KEY_F, GLFW_KEY_LEFT, GLFW_KEY_RIGHT, GLFW_KEY_DOWN, GLFW_KEY_UP,
    GLFW_KEY_C, GLFW_KEY_MINUS, GLFW_KEY_EQUAL, GLFW_KEY_COMMA, GLFW_PRESS, GLFW_RELEASE, h]

theorem press_equal (cam : CameraMethods) (w : World) (h : w.tess_level_outer < 50) :
    (KeyCallback cam GLFW_KEY_EQUAL 0 GLFW_PRESS 0 w).tess_level_outer
      = w.tess_level_outer + 1 := by
  rw [KeyCallback_outer]
  simp [keyChain, GLFW_KEY_PERIOD, GLFW_KEY_ESCAPE, GLFW_KEY_S, GLFW_KEY_W, GLFW_KEY_A,
    GLFW_KEY_D, GLFW_KEY_F, GLFW_KEY_LEFT, GLFW_KEY_RIGHT, GLFW_KEY_DOWN, GLFW_KEY_UP,
    GLFW_KEY_C, GLFW_KEY_MINUS, GLFW_KEY_EQUAL, GLFW_KEY_COMMA, GLFW_PRESS, GLFW_RELEASE, h]

theorem press_comma (cam : CameraMethods) (w : World) (h : w.tess_level_inner > 1) :
    (KeyCallback cam GLFW_KEY_COMMA 0 GLFW_PRESS 0 w).tess_level_inner
      = w.tess_level_inner - 1 := by
  rw [KeyCallback_inner]
  simp [keyChain, GLFW_KEY_PERIOD, GLFW_KEY_ESCAPE, GLFW_KEY_S, GLFW_KEY_W, GLFW_KEY_A,
    GLFW_KEY_D, GLFW_KEY_F, GLFW_KEY_LEFT, GLFW_KEY_RIGHT, GLFW_KEY_DOWN, GLFW_KEY_UP,
    GLFW_KEY_C, GLFW_KEY_MINUS, GLFW_KEY_EQUAL, GLFW_KEY_COMMA, GLFW_PRESS, GLFW_RELEASE, h]

theorem press_minus (cam : CameraMethods) (w : World) (h : w.tess_level_outer > 1) :
    (KeyCallback cam GLFW_KEY_MINUS 0 GLFW_PRESS 0 w).tess_level_outer
      = w.tess_level_outer - 1 := by
  rw [KeyCallback_outer]
  simp [keyChain, GLFW_KEY_PERIOD, GLFW_KEY_ESCAPE, GLFW_KEY_S, GLFW_KEY_W, GLFW_KEY_A,
    GLFW_KEY_D, GLFW_KEY_F, GLFW_KEY_LEFT, GLFW_KEY_RIGHT, GLFW_KEY_DOWN, GLFW_KEY_UP,
    GLFW_KEY_C, GLFW_KEY_MINUS, GLFW_KEY_EQUAL, GLFW_KEY_COMMA, GLFW_PRESS, GLFW_RELEASE, h]

theorem runKeys_replicate_succ (cam : CameraMethods) (e : KeyEvent) (n : Nat) (w : World) :
    runKeys cam (List.replicate (n + 1) e) w
      = runKeys cam (List.replicate n e) (KeyCallback cam e.key e.scancode e.action e.mods w) :=
  rfl

theorem hold_period (cam : CameraMethods) (n : Nat) :
    ∀ (w : World) (k : Nat), w.tess_level_inner = k → k + n ≤ 50 →
      (runKeys cam (List.replicate n (keyPress GLFW_KEY_PERIOD)) w).tess_level_inner
        = ((k + n : Nat) : ℚ) := by
  induction n with
  | zero => intro w k hk _; simpa [runKeys] using hk
  | succ n ih =>
    intro w k hk hle
    rw [runKeys_replicate_succ]
    have hlt : w.tess_level_inner < 50 := by
      rw [hk]; exact_mod_cast (by omega : k < 50)
    have hstep := press_period cam w hlt
    have := ih (KeyCallback cam GLFW_KEY_PERIOD 0 GLFW_PRESS 0 w) (k + 1)
      (by rw [hstep, hk]; push_cast; ring) (by omega)
    rw [show k + (n + 1) = k + 1 + n by omega]
    exact this

theorem hold_equal (cam : CameraMethods) (n : Nat) :
    ∀ (w : World) (k : Nat), w.tess_level_outer = k → k + n ≤ 50 →
      (runKeys cam (List.replicate n (keyPress GLFW_KEY_EQUAL)) w).tess_level_outer
        = ((k + n : Nat) : ℚ) := by
  induction n with
  | zero => intro w k hk _; simpa [runKeys] using hk
  | succ n ih =>
    intro w k hk hle
    rw [runKeys_replicate_succ]
    have hlt : w.tess_level_outer < 50 := by
      rw [hk]; exact_mod_cast (by omega : k < 50)
    have hstep := press_equal cam w hlt
    have := ih (KeyCallback cam GLFW_KEY_EQUAL 0 GLFW_PRESS 0 w) (k + 1)
      (by rw [hstep, hk]; push_cast; ring) (by omega)
    rw [show k + (n + 1) = k + 1 + n by omega]
    exact this

/-- C1: starting from the initial scene state (both tessellation levels
3.0), after every finite sequence of key events both `tess_level_inner` and
`tess_level_outer` lie in the closed interval [1, 50]; and each of the
bounds 1 and 50 is reached by some sequence of key events, for each of the
two levels. -/
theorem tess_levels_within_bounds (cam : CameraMethods) (m : Option Provider) :
    (∀ evs : List KeyEvent,
      1 ≤ (runKeys cam evs (initWorld m)).tess_level_inner
      ∧ (runKeys cam evs (initWorld m)).tess_level_inner ≤ 50
      ∧ 1 ≤ (runKeys cam evs (initWorld m)).tess_level_outer
      ∧ (runKeys cam evs (initWorld m)).tess_level_outer ≤ 50)
    ∧ (∃ evs : List KeyEvent, (runKeys cam evs (initWorld m)).tess_level_inner = 1)
    ∧ (∃ evs : List KeyEvent, (runKeys cam evs (initWorld m)).tess_level_inner = 50)
    ∧ (∃ evs : List KeyEvent, (runKeys cam evs (initWorld m)).tess_level_outer = 1)
    ∧ (∃ evs : List KeyEvent, (runKeys cam evs (initWorld m)).tess_level_outer = 50) := by
  have h3 : levelOK (3 : ℚ) := ⟨3, by norm_num, by norm_num, by norm_num⟩
  refine ⟨fun evs => ?_, ?_, ?_, ?_, ?_⟩
  · have h := runKeys_levelOK cam evs (initWorld m) h3 h3
    exact ⟨(levelOK_bounds h.1).1, (levelOK_bounds h.1).2,
      (levelOK_bounds h.2).1, (levelOK_bounds h.2).2⟩
  · refine ⟨[keyPress GLFW_KEY_COMMA, keyPress GLFW_KEY_COMMA], ?_⟩
    have h0 : (initWorld m).tess_level_inner = 3 := rfl
    have s1 := press_comma cam (initWorld m) (by rw [h0]; norm_num)
    have s2 := press_comma cam _ (by rw [s1, h0]; norm_num)
    show (KeyCallback cam GLFW_KEY_COMMA 0 GLFW_PRESS 0
      (KeyCallback cam GLFW_KEY_COMMA 0 GLFW_PRESS 0 (initWorld m))).tess_level_inner = 1
    rw [s2, s1, h0]; norm_num
  · refine ⟨List.replicate 47 (keyPress GLFW_KEY_PERIOD), ?_⟩
    have := hold_period cam 47 (initWorld m) 3 (by simp [initWorld]) (by norm_num)
    rw [this]; norm_num
  · refine ⟨[keyPress GLFW_KEY_MINUS, keyPress GLFW_KEY_MINUS], ?_⟩
    have h0 : (initWorld m).tess_level_outer = 3 := rfl
    have s1 := press_minus cam (initWorld m) (by rw [h0]; norm_num)
    have s2 := press_minus cam _ (by rw [s1, h0]; norm_num)
    show (KeyCallback cam GLFW_KEY_MINUS 0 GLFW_PRESS 0
      (KeyCallback cam GLFW_KEY_MINUS 0 GLFW_PRESS 0 (initWorld m))).tess_level_outer = 1
    rw [s2, s1, h0]; norm_num
  · refine ⟨List.replicate 47 (keyPress GLFW_KEY_EQUAL), ?_⟩
    have := hold_equal cam 47 (initWorld m) 3 (by simp [initWorld]) (by norm_num)
    rw [this]; norm_num

/-! ## Export -/

theorem joinLines_cons (l : String) (ls : List String) :
    joinLines (l :: ls) = l ++ joinLines ls := rfl

theorem joinLines_append (xs ys : List String) :
    joinLines (xs ++ ys) = joinLines xs ++ joinLines ys := by
  induction xs with
  | nil => simp [joinLines]
  | cons x xs ih => rw [List.cons_append, joinLines_cons, joinLines_cons, ih, String.append_assoc]

theorem foldl_lines {α : Type} (line : α → String) (xs : List α) :
    ∀ acc : String, xs.foldl (fun f x => f ++ line x) acc = acc ++ joinLines (xs.map line) := by
  induction xs with
  | nil => intro acc; simp [joinLines]
  | cons x xs ih =>
    intro acc
    rw [List.foldl_cons, ih, List.map_cons, joinLines_cons, String.append_assoc]

theorem SaveObj_eq (fmt : ℚ → String) (V : List vec4) (F : List uvec3) :
    SaveObj fmt V F = joinLines (V.map (vertexLine fmt) ++ F.map faceLineU32) := by
  have hv : (fun (f : String) (v : vec4) =>
      f ++ "v " ++ fmt v.x ++ " " ++ fmt v.y ++ " " ++ fmt v.z ++ "\n")
      = fun f v => f ++ vertexLine fmt v := by
    funext f v; simp [vertexLine, String.append_assoc]
  have hf : (fun (f : String) (i : uvec3) =>
      f ++ "f " ++ toString ((i.x + 1) % UINT_MOD) ++ " "
        ++ toString ((i.y + 1) % UINT_MOD) ++ " " ++ toString ((i.z + 1) % UINT_MOD) ++ "\n")
      = fun f i => f ++ faceLineU32 i := by
    funext f i; simp [faceLineU32, String.append_assoc]
  unfold SaveObj
  simp only [hv, hf]
  rw [foldl_lines, foldl_lines, joinLines_append]
  simp

theorem faceLineU32_eq (i : uvec3) (hx : i.x + 1 < UINT_MOD) (hy : i.y + 1 < UINT_MOD)
    (hz : i.z + 1 < UINT_MOD) : faceLineU32 i = faceLine i := by
  unfold faceLineU32 faceLine
  rw [Nat.mod_eq_of_lt hx, Nat.mod_eq_of_lt hy, Nat.mod_eq_of_lt hz]

/-- C2, as stated, fails: for the triangle with first index `4294967295`
(the largest `unsigned int`) the code writes `f 0 1 1`, since `i.x + 1` is
computed in `unsigned int`, whereas the 1-based index the claim asks for is
`4294967296`. -/
theorem SaveObj_index_wraps :
    SaveObj fmtWhole [] [⟨4294967295, 0, 0⟩] = "f 0 1 1\n"
    ∧ joinLines (([] : List vec4).map (vertexLine fmtWhole)
        ++ [(⟨4294967295, 0, 0⟩ : uvec3)].map faceLine) = "f 4294967296 1 1\n"
    ∧ SaveObj fmtWhole [] [⟨4294967295, 0, 0⟩]
        ≠ joinLines (([] : List vec4).map (vertexLine fmtWhole)
            ++ [(⟨4294967295, 0, 0⟩ : uvec3)].map faceLine) := by
  refine ⟨by decide, by decide, by decide⟩

/-- C2, amended: for every vertex list V and triangle list F, `SaveObj`
writes exactly the |V| lines `v x y z` (in list order, `w` omitted) followed
by the |F| lines `f a b c`, each newline-terminated and nothing else, where
a, b, c are the triangle's indices plus one reduced modulo 2^32; when every
index plus one is below 2^32 these are the 1-based indices; and for the
three vertices and one triangle of the example (whole coordinates printed as
`0` and `1`) the text is the four lines of the spec. -/
theorem SaveObj_format (fmt : ℚ → String) (V : List vec4) (F : List uvec3) :
    SaveObj fmt V F = joinLines (V.map (vertexLine fmt) ++ F.map faceLineU32)
    ∧ (V.map (vertexLine fmt) ++ F.map faceLineU32).length = V.length + F.length
    ∧ ((∀ i ∈ F, i.x + 1 < UINT_MOD ∧ i.y + 1 < UINT_MOD ∧ i.z + 1 < UINT_MOD) →
        SaveObj fmt V F = joinLines (V.map (vertexLine fmt) ++ F.map faceLine))
    ∧ (fmt 0 = "0" → fmt 1 = "1" →
        SaveObj fmt [⟨0, 0, 0, 1⟩, ⟨1, 0, 0, 1⟩, ⟨0, 1, 0, 1⟩] [⟨0, 1, 2⟩]
          = "v 0 0 0\nv 1 0 0\nv 0 1 0\nf 1 2 3\n") := by
  refine ⟨SaveObj_eq fmt V F, by simp, ?_, ?_⟩
  · intro h
    rw [SaveObj_eq]
    congr 2
    apply List.map_congr_left
    intro i hi
    exact faceLineU32_eq i (h i hi).1 (h i hi).2.1 (h i hi).2.2
  · intro h0 h1
    rw [SaveObj_eq]
    simp only [List.map, vertexLine, h0, h1]
    decide

/-- Witness for C2: the example mesh of the spec, whose indices are far
below 2^32, with whole coordinates printed as decimal digits. -/
theorem SaveObj_format_witness :
    SaveObj fmtWhole [⟨0, 0, 0, 1⟩, ⟨1, 0, 0, 1⟩, ⟨0, 1, 0, 1⟩] [⟨0, 1, 2⟩]
      = joinLines (([⟨0, 0, 0, 1⟩, ⟨1, 0, 0, 1⟩, ⟨0, 1, 0, 1⟩] : List vec4).map
          (vertexLine fmtWhole) ++ [(⟨0, 1, 2⟩ : uvec3)].map faceLine)
    ∧ SaveObj fmtWhole [⟨0, 0, 0, 1⟩, ⟨1, 0, 0, 1⟩, ⟨0, 1, 0, 1⟩] [⟨0, 1, 2⟩]
      = "v 0 0 0\nv 1 0 0\nv 0 1 0\nf 1 2 3\n" :=
  ⟨(SaveObj_format fmtWhole [⟨0, 0, 0, 1⟩, ⟨1, 0, 0, 1⟩, ⟨0, 1, 0, 1⟩] [⟨0, 1, 2⟩]).2.2.1
      (by decide),
   (SaveObj_format fmtWhole [⟨0, 0, 0, 1⟩, ⟨1, 0, 0, 1⟩, ⟨0, 1, 0, 1⟩] [⟨0, 1, 2⟩]).2.2.2
      (by decide) (by decide)⟩

/-! ## Floating-point conversions -/

theorem roundHalfEven_intCast (z : ℤ) : roundHalfEven (z : ℚ) = z := by
  unfold roundHalfEven
  simp

theorem roundBinary_exact (prec : Nat) (emin : Int) (q : ℚ) (z : ℤ)
    (h : q / (2 : ℚ) ^ quantumExp prec emin q = z) : roundBinary prec emin q = q := by
  unfold roundBinary
  rw [h, roundHalfEven_intCast, ← h]
  have : (2 : ℚ) ^ quantumExp prec emin q ≠ 0 := zpow_ne_zero _ (by norm_num)
  field_simp

theorem log2_eq (r : ℚ) (e : ℤ) (h1 : (2 : ℚ) ^ e ≤ r) (h2 : r < (2 : ℚ) ^ (e + 1)) :
    Int.log 2 r = e := by
  have hr : 0 < r := lt_of_lt_of_le (zpow_pos (by norm_num) e) h1
  have a : e ≤ Int.log 2 r := (Int.zpow_le_iff_le_log (by norm_num) hr).1 (by exact_mod_cast h1)
  have b : Int.log 2 r < e + 1 :=
    (Int.lt_zpow_iff_log_lt (by norm_num) hr).1 (by exact_mod_cast h2)
  omega

/-- A whole number of fewer than `prec` bits is a value of the format. -/
theorem roundBinary_intCast (prec : Nat) (emin : Int) (n : ℤ) (hp : 1 ≤ prec)
    (he : emin ≤ (prec : Int) - 1) (hn : |n| < 2 ^ prec) :
    roundBinary prec emin (n : ℚ) = n := by
  have hq : quantumExp prec emin (n : ℚ) ≤ 0 := by
    unfold quantumExp
    have hlog : Int.log 2 |(n : ℚ)| ≤ (prec : Int) - 1 := by
      by_cases h0 : n = 0
      · subst h0; simp; omega
      · have hpos : (0 : ℚ) < |(n : ℚ)| := abs_pos.2 (by exact_mod_cast h0)
        have hlt : |(n : ℚ)| < ((2 : ℕ) : ℚ) ^ ((prec : ℕ) : ℤ) := by
          rw [zpow_natCast]
          have : ((|n| : ℤ) : ℚ) < ((2 ^ prec : ℤ) : ℚ) := by exact_mod_cast hn
          simpa using this
        have := (Int.lt_zpow_iff_log_lt (by norm_num) hpos).1 hlt
        omega
    have := max_le hlog he
    omega
  obtain ⟨k, hk⟩ : ∃ k : ℕ, quantumExp prec emin (n : ℚ) = -(k : ℤ) :=
    ⟨(-(quantumExp prec emin (n : ℚ))).toNat, by omega⟩
  apply roundBinary_exact prec emin (n : ℚ) (n * 2 ^ k)
  rw [hk, zpow_neg, zpow_natCast]
  push_cast
  field_simp

theorem toFloat_intCast (n : ℤ) (hn : |n| < 2 ^ 24) : toFloat (n : ℚ) = n :=
  roundBinary_intCast 24 (-126) n (by norm_num) (by norm_num) hn

theorem toDouble_intCast (n : ℤ) (hn : |n| < 2 ^ 53) : toDouble (n : ℚ) = n :=
  roundBinary_intCast 53 (-1022) n (by norm_num) (by norm_num) hn

theorem toFloat_zero : toFloat 0 = 0 := by
  have h := toFloat_intCast 0 (by norm_num)
  simpa using h

theorem toDouble_zero : toDouble 0 = 0 := by
  have h := toDouble_intCast 0 (by norm_num)
  simpa using h

theorem quantumExp_of_mem_binade6 (prec : Nat) (emin : Int) (q : ℚ) (h1 : 64 ≤ |q|)
    (h2 : |q| < 128) (he : emin ≤ 6) : quantumExp prec emin q = 6 - ((prec : Int) - 1) := by
  unfold quantumExp
  rw [log2_eq |q| 6 (by norm_num; exact h1) (by norm_num; exact h2), max_eq_left he]

/-- The position 100 + 2^-20, a `double` that is not a `float`, becomes 100. -/
theorem toFloat_fine_step : toFloat (104857601 / 1048576) = 100 := by
  have hq : quantumExp 24 (-126) (104857601 / 1048576) = -17 := by
    rw [quantumExp_of_mem_binade6 24 (-126) _ (by rw [abs_of_pos (by norm_num)]; norm_num)
      (by rw [abs_of_pos (by norm_num)]; norm_num) (by norm_num)]
    norm_num
  have hf : ⌊((104857601 / 1048576) : ℚ) / (2 : ℚ) ^ (-17 : ℤ)⌋ = 13107200 := by
    rw [Int.floor_eq_iff]
    norm_num
  unfold toFloat roundBinary
  rw [hq]
  unfold roundHalfEven
  rw [hf]
  norm_num

theorem toFloat_neg_fine_step : toFloat (-(104857601 / 1048576)) = -100 := by
  have hq : quantumExp 24 (-126) (-(104857601 / 1048576)) = -17 := by
    rw [quantumExp_of_mem_binade6 24 (-126) _
      (by rw [abs_neg, abs_of_pos (by norm_num)]; norm_num)
      (by rw [abs_neg, abs_of_pos (by norm_num)]; norm_num) (by norm_num)]
    norm_num
  have hf : ⌊(-(104857601 / 1048576) : ℚ) / (2 : ℚ) ^ (-17 : ℤ)⌋ = -13107201 := by
    rw [Int.floor_eq_iff]
    norm_num
  unfold toFloat roundBinary
  rw [hq]
  unfold roundHalfEven
  rw [hf]
  norm_num

theorem toDouble_neg_fine_step : toDouble (-(104857601 / 1048576)) = -(104857601 / 1048576) := by
  have hq : quantumExp 53 (-1022) (-(104857601 / 1048576)) = -46 := by
    rw [quantumExp_of_mem_binade6 53 (-1022) _
      (by rw [abs_neg, abs_of_pos (by norm_num)]; norm_num)
      (by rw [abs_neg, abs_of_pos (by norm_num)]; norm_num) (by norm_num)]
    norm_num
  apply roundBinary_exact 53 (-1022) _ (-7036874484875264)
  rw [hq]
  norm_num

/-! ## Pointer events -/

theorem MousePosCallback_last (cam : CameraMethods) (x y : ℚ) (w : World)
    (hp : w.g_mouse_pressed = true) :
    (MousePosCallback cam x y w).g_camera.last_x = toFloat x
    ∧ (MousePosCallback cam x y w).g_camera.last_y = toFloat y := by
  simp [MousePosCallback, hp]

theorem MousePosCallback_left (cam : CameraMethods) (x y : ℚ) (w : World)
    (hp : w.g_mouse_pressed = true) (hb : w.g_current_button = GLFW_MOUSE_BUTTON_LEFT) :
    MousePosCallback cam x y w
      = { w with
          g_camera :=
            { cam.rotate (toFloat (toDouble (w.g_camera.last_x - x)))
                (toFloat (toDouble (w.g_camera.last_y - y))) w.g_camera with
              last_y := toFloat y, last_x := toFloat x }
          calls := w.calls ++ [Call.rotate (toFloat (toDouble (w.g_camera.last_x - x)))
            (toFloat (toDouble (w.g_camera.last_y - y)))] } := by
  simp [MousePosCallback, hp, hb, World.camera]

/-- C3, as stated, fails in two ways.  With no button pressed (the state at
program start, last cursor (0, 0)) a pointer move to (5, 7) returns at the
first statement of `MousePosCallback` and the last cursor stays (0, 0).  And
with a button pressed, a move to x = 100 + 2^-20, which is a `double` but not
a `float`, stores 100: `last_x` is a `float`. -/
theorem lastCursor_stale_when_not_pressed :
    (initWorld none).g_mouse_pressed = false
    ∧ (MousePosCallback idleCamera 5 7 (initWorld none)).g_camera.last_x = 0
    ∧ (MousePosCallback idleCamera 5 7 (initWorld none)).g_camera.last_y = 0
    ∧ ((MousePosCallback idleCamera 5 7 (initWorld none)).g_camera.last_x,
        (MousePosCallback idleCamera 5 7 (initWorld none)).g_camera.last_y) ≠ ((5 : ℚ), (7 : ℚ))
    ∧ (MouseButtonCallback GLFW_MOUSE_BUTTON_LEFT GLFW_PRESS 0 (initWorld none)).g_mouse_pressed = true
    ∧ (MousePosCallback idleCamera (104857601 / 1048576) 0 (MouseButtonCallback GLFW_MOUSE_BUTTON_LEFT GLFW_PRESS 0 (initWorld none))).g_camera.last_x = 100
    ∧ (100 : ℚ) ≠ 104857601 / 1048576 := by
  refine ⟨rfl, by decide, by decide, by decide, rfl, ?_, by norm_num⟩
  rw [(MousePosCallback_last idleCamera (104857601 / 1048576) 0 (MouseButtonCallback GLFW_MOUSE_BUTTON_LEFT GLFW_PRESS 0 (initWorld none)) rfl).1]
  exact toFloat_fine_step

/-- C3, amended: for every pointer-move event (x, y) received while a button
is pressed (whichever button, whatever the camera methods do), the last
cursor after the event is (x, y) converted to `float`; it equals (x, y)
whenever x and y are values of `float`, in particular whenever they are whole
numbers below 2^24 in magnitude; received while no button is pressed, the
event changes nothing, the last cursor included. -/
theorem lastCursor_after_move (cam : CameraMethods) (x y : ℚ) (w : World) :
    (w.g_mouse_pressed = true →
      (MousePosCallback cam x y w).g_camera.last_x = toFloat x
      ∧ (MousePosCallback cam x y w).g_camera.last_y = toFloat y)
    ∧ (w.g_mouse_pressed = true → toFloat x = x → toFloat y = y →
      (MousePosCallback cam x y w).g_camera.last_x = x
      ∧ (MousePosCallback cam x y w).g_camera.last_y = y)
    ∧ (w.g_mouse_pressed = true →
      ∀ a b : ℤ, x = a → y = b → |a| < 2 ^ 24 → |b| < 2 ^ 24 →
        (MousePosCallback cam x y w).g_camera.last_x = x
        ∧ (MousePosCallback cam x y w).g_camera.last_y = y)
    ∧ (w.g_mouse_pressed = false → MousePosCallback cam x y w = w) := by
  refine ⟨fun h => MousePosCallback_last cam x y w h, fun h hx hy => ?_,
    fun h a b ha hb hA hB => ?_, fun h => ?_⟩
  · have hl := MousePosCallback_last cam x y w h
    exact ⟨hl.1.trans hx, hl.2.trans hy⟩
  · have hl := MousePosCallback_last cam x y w h
    subst ha hb
    exact ⟨hl.1.trans (toFloat_intCast a hA), hl.2.trans (toFloat_intCast b hB)⟩
  · simp [MousePosCallback, h]

/-- Witness for C3: a drag with the middle button from the start state to
the pixel (5, 7) records (5, 7); the same move with no button pressed changes
nothing. -/
theorem lastCursor_after_move_witness :
    ((MousePosCallback idleCamera 5 7
        (MouseButtonCallback GLFW_MOUSE_BUTTON_MIDDLE GLFW_PRESS 0 (initWorld none))).g_camera.last_x = 5
      ∧ (MousePosCallback idleCamera 5 7
        (MouseButtonCallback GLFW_MOUSE_BUTTON_MIDDLE GLFW_PRESS 0 (initWorld none))).g_camera.last_y = 7)
    ∧ MousePosCallback idleCamera 5 7 (initWorld none) = initWorld none := by
  have h := lastCursor_after_move idleCamera 5 7
    (MouseButtonCallback GLFW_MOUSE_BUTTON_MIDDLE GLFW_PRESS 0 (initWorld none))
  have h1 := h.2.2.1 rfl 5 7 (by norm_num) (by norm_num) (by norm_num) (by norm_num)
  have h2 := (lastCursor_after_move idleCamera 5 7 (initWorld none)).2.2.2 rfl
  exact ⟨h1, h2⟩

/-- C4, as stated, fails: with the left button held and last cursor (0, 0), a
move to x = 100 + 2^-20 (a `double` that is not a `float`) and y = 0 calls
`rotate(-100, 0)`, not `rotate(last_x - x, last_y - y)`, whose first argument
would be -(100 + 2^-20), and the last cursor becomes (100, 0), not (x, 0):
the parameters of `rotate` and the cursor fields are `float`. -/
theorem left_drag_narrows :
    (MouseButtonCallback GLFW_MOUSE_BUTTON_LEFT GLFW_PRESS 0 (initWorld none)).g_mouse_pressed = true
    ∧ (MouseButtonCallback GLFW_MOUSE_BUTTON_LEFT GLFW_PRESS 0 (initWorld none)).g_current_button = GLFW_MOUSE_BUTTON_LEFT
    ∧ (MouseButtonCallback GLFW_MOUSE_BUTTON_LEFT GLFW_PRESS 0 (initWorld none)).g_camera.last_x = 0
    ∧ (MouseButtonCallback GLFW_MOUSE_BUTTON_LEFT GLFW_PRESS 0 (initWorld none)).g_camera.last_y = 0
    ∧ (MousePosCallback idleCamera (104857601 / 1048576) 0 (MouseButtonCallback GLFW_MOUSE_BUTTON_LEFT GLFW_PRESS 0 (initWorld none))).calls = [Call.rotate (-100) 0]
    ∧ (-100 : ℚ) ≠ 0 - 104857601 / 1048576
    ∧ (MousePosCallback idleCamera (104857601 / 1048576) 0 (MouseButtonCallback GLFW_MOUSE_BUTTON_LEFT GLFW_PRESS 0 (initWorld none))).g_camera.last_x = 100
    ∧ (100 : ℚ) ≠ 104857601 / 1048576 := by
  have hx : toFloat (toDouble ((0 : ℚ) - 104857601 / 1048576)) = -100 := by
    rw [zero_sub, toDouble_neg_fine_step, toFloat_neg_fine_step]
  have hy : toFloat (toDouble ((0 : ℚ) - 0)) = 0 := by
    rw [sub_zero, toDouble_zero, toFloat_zero]
  refine ⟨rfl, rfl, rfl, rfl, ?_, by norm_num, ?_, by norm_num⟩
  · rw [MousePosCallback_left idleCamera (104857601 / 1048576) 0 (MouseButtonCallback GLFW_MOUSE_BUTTON_LEFT GLFW_PRESS 0 (initWorld none)) rfl rfl]
    show ([] : List Call) ++ [Call.rotate (toFloat (toDouble ((0 : ℚ) - 104857601 / 1048576)))
      (toFloat (toDouble ((0 : ℚ) - 0)))] = [Call.rotate (-100) 0]
    rw [hx, hy]
    rfl
  · rw [(MousePosCallback_last idleCamera (104857601 / 1048576) 0 (MouseButtonCallback GLFW_MOUSE_BUTTON_LEFT GLFW_PRESS 0 (initWorld none)) rfl).1]
    exact toFloat_fine_step

/-- C4, amended: a pointer move to (x, y) while a button is pressed and the
active button is the left one invokes `rotate` exactly once, with
`dx = last_x - x` and `dy = last_y - y` (the last cursor before the event)
computed in `double` and converted to `float`, invokes nothing else, and then
sets the last cursor to (x, y) converted to `float`; no other global changes.
When the last cursor and the position are whole numbers, the position and the
differences below 2^24 in magnitude, the conversions change nothing: the call
is `rotate(last_x - x, last_y - y)` and the last cursor becomes (x, y).  For
last cursor (100, 100) and a move to (90, 80) the call is `rotate(10, 20)`
and the last cursor becomes (90, 80). -/
theorem left_drag_rotates (cam : CameraMethods) (x y : ℚ) (w : World)
    (hp : w.g_mouse_pressed = true) (hb : w.g_current_button = GLFW_MOUSE_BUTTON_LEFT) :
    MousePosCallback cam x y w
      = { w with
          g_camera :=
            { cam.rotate (toFloat (toDouble (w.g_camera.last_x - x)))
                (toFloat (toDouble (w.g_camera.last_y - y))) w.g_camera with
              last_y := toFloat y, last_x := toFloat x }
          calls := w.calls ++ [Call.rotate (toFloat (toDouble (w.g_camera.last_x - x)))
            (toFloat (toDouble (w.g_camera.last_y - y)))] }
    ∧ (∀ a b c d : ℤ, w.g_camera.last_x = a → w.g_camera.last_y = b → x = c → y = d →
        |c| < 2 ^ 24 → |d| < 2 ^ 24 → |a - c| < 2 ^ 24 → |b - d| < 2 ^ 24 →
        MousePosCallback cam x y w
          = { w with
              g_camera :=
                { cam.rotate (w.g_camera.last_x - x) (w.g_camera.last_y - y) w.g_camera with
                  last_y := y, last_x := x }
              calls := w.calls
                ++ [Call.rotate (w.g_camera.last_x - x) (w.g_camera.last_y - y)] })
    ∧ (w.g_camera.last_x = 100 → w.g_camera.last_y = 100 → x = 90 → y = 80 →
        (MousePosCallback cam x y w).calls = w.calls ++ [Call.rotate 10 20]
        ∧ (MousePosCallback cam x y w).g_camera.last_x = 90
        ∧ (MousePosCallback cam x y w).g_camera.last_y = 80) := by
  have h := MousePosCallback_left cam x y w hp hb
  have hexact : ∀ a b c d : ℤ, w.g_camera.last_x = a → w.g_camera.last_y = b → x = c →
      y = d → |c| < 2 ^ 24 → |d| < 2 ^ 24 → |a - c| < 2 ^ 24 → |b - d| < 2 ^ 24 →
      MousePosCallback cam x y w
        = { w with
            g_camera :=
              { cam.rotate (w.g_camera.last_x - x) (w.g_camera.last_y - y) w.g_camera with
                last_y := y, last_x := x }
            calls := w.calls
              ++ [Call.rotate (w.g_camera.last_x - x) (w.g_camera.last_y - y)] } := by
    intro a b c d ha hb2 hc hd hC hD hAC hBD
    have e1 : toFloat (toDouble (w.g_camera.last_x - x)) = w.g_camera.last_x - x := by
      rw [ha, hc, ← Int.cast_sub,
        toDouble_intCast (a - c) (lt_trans hAC (by norm_num)), toFloat_intCast (a - c) hAC]
    have e2 : toFloat (toDouble (w.g_camera.last_y - y)) = w.g_camera.last_y - y := by
      rw [hb2, hd, ← Int.cast_sub,
        toDouble_intCast (b - d) (lt_trans hBD (by norm_num)), toFloat_intCast (b - d) hBD]
    have e3 : toFloat x = x := by rw [hc]; exact toFloat_intCast c hC
    have e4 : toFloat y = y := by rw [hd]; exact toFloat_intCast d hD
    rw [h, e1, e2, e3, e4]
  refine ⟨h, hexact, ?_⟩
  intro hx hy h90 h80
  have he := hexact 100 100 90 80 (by rw [hx]; norm_num) (by rw [hy]; norm_num)
    (by rw [h90]; norm_num) (by rw [h80]; norm_num) (by norm_num) (by norm_num)
    (by norm_num) (by norm_num)
  rw [he]
  subst h90 h80
  simp only [hx, hy]
  norm_num

/-- Witness for C4: the drag of the spec, from last cursor (100, 100) to
(90, 80) with the left button held. -/
theorem left_drag_rotates_witness :
    (MousePosCallback idleCamera 90 80
        { initWorld none with
          g_mouse_pressed := true
          g_current_button := GLFW_MOUSE_BUTTON_LEFT
          g_camera := { last_x := 100, last_y := 100 } }).calls = [Call.rotate 10 20]
    ∧ (MousePosCallback idleCamera 90 80
        { initWorld none with
          g_mouse_pressed := true
          g_current_button := GLFW_MOUSE_BUTTON_LEFT
          g_camera := { last_x := 100, last_y := 100 } }).g_camera.last_x = 90
    ∧ (MousePosCallback idleCamera 90 80
        { initWorld none with
          g_mouse_pressed := true
          g_current_button := GLFW_MOUSE_BUTTON_LEFT
          g_camera := { last_x := 100, last_y := 100 } }).g_camera.last_y = 80 :=
  (left_drag_rotates idleCamera 90 80
    { initWorld none with
      g_mouse_pressed := true
      g_current_button := GLFW_MOUSE_BUTTON_LEFT
      g_camera := { last_x := 100, last_y := 100 } } rfl rfl).2.2 rfl rfl rfl rfl

/-! ## Nesting-level keys -/

theorem keyChain_nestingKey (cam : CameraMethods) (key n action mods : Int) (w : World)
    (hk : (key, n) ∈ nestingKeys) : keyChain cam key action mods w = w := by
  simp only [nestingKeys, List.mem_cons, Prod.mk.injEq, List.mem_singleton, List.not_mem_nil,
    or_false] at hk
  rcases hk with ⟨rfl, _⟩ | ⟨rfl, _⟩ | ⟨rfl, _⟩ | ⟨rfl, _⟩ | ⟨rfl, _⟩ <;>
  simp [keyChain, GLFW_KEY_PERIOD, GLFW_KEY_ESCAPE, GLFW_KEY_S, GLFW_KEY_W, GLFW_KEY_A,
    GLFW_KEY_D, GLFW_KEY_F, GLFW_KEY_LEFT, GLFW_KEY_RIGHT, GLFW_KEY_DOWN, GLFW_KEY_UP,
    GLFW_KEY_C, GLFW_KEY_MINUS, GLFW_KEY_EQUAL, GLFW_KEY_COMMA, GLFW_KEY_0, GLFW_KEY_1,
    GLFW_KEY_2, GLFW_KEY_3, GLFW_KEY_4, GLFW_PRESS, GLFW_RELEASE, GLFW_MOD_CONTROL]

/-- C5: for each of the keys 0 to 4, with any action and modifiers: when no
provider is attached, `KeyCallback` returns the state it was given (camera,
tessellation levels, wireframe, fill-faces, export flag, and the record of
outgoing calls, so no provider call is made); when a provider is attached
and the action is not release, key n makes exactly the one call
`set_nesting_level(n)`, with n between 0 and 4, and changes nothing but the
provider. -/
theorem nesting_keys (cam : CameraMethods) (key n sc action mods : Int) (w : World)
    (hk : (key, n) ∈ nestingKeys) :
    (w.g_menger = none → KeyCallback cam key sc action mods w = w)
    ∧ (∀ m : Provider, w.g_menger = some m → action ≠ GLFW_RELEASE →
        KeyCallback cam key sc action mods w
          = { w with g_menger := some (m.set_nesting_level n),
                     calls := w.calls ++ [Call.set_nesting_level n] }
        ∧ 0 ≤ n ∧ n ≤ 4) := by
  have hc := keyChain_nestingKey cam key n action mods w hk
  unfold KeyCallback
  rw [hc]
  simp only [nestingKeys, List.mem_cons, Prod.mk.injEq, List.mem_singleton, List.not_mem_nil,
    or_false] at hk
  constructor
  · intro hnone
    simp [nestingChain, hnone]
  · intro m hm ha
    have ha0 : ¬ action = 0 := ha
    rcases hk with ⟨rfl, rfl⟩ | ⟨rfl, rfl⟩ | ⟨rfl, rfl⟩ | ⟨rfl, rfl⟩ | ⟨rfl, rfl⟩ <;>
    simp [nestingChain, hm, World.nest, ha0, GLFW_KEY_PERIOD, GLFW_KEY_ESCAPE, GLFW_KEY_S, GLFW_KEY_W, GLFW_KEY_A,
    GLFW_KEY_D, GLFW_KEY_F, GLFW_KEY_LEFT, GLFW_KEY_RIGHT, GLFW_KEY_DOWN, GLFW_KEY_UP,
    GLFW_KEY_C, GLFW_KEY_MINUS, GLFW_KEY_EQUAL, GLFW_KEY_COMMA, GLFW_KEY_0, GLFW_KEY_1,
    GLFW_KEY_2, GLFW_KEY_3, GLFW_KEY_4, GLFW_PRESS, GLFW_RELEASE, GLFW_MOD_CONTROL]

/-- Witness for C5: key 3, first with no provider attached (a release and a
press both leave the start state as it is), then pressed with a provider
attached. -/
theorem nesting_keys_witness :
    KeyCallback idleCamera GLFW_KEY_3 0 GLFW_PRESS 0 (initWorld none) = initWorld none
    ∧ (KeyCallback idleCamera GLFW_KEY_3 0 GLFW_PRESS 0 (initWorld (some ⟨1, false⟩))
          = { initWorld (some ⟨1, false⟩) with
              g_menger := some (Provider.set_nesting_level 3 ⟨1, false⟩),
              calls := (initWorld (some ⟨1, false⟩)).calls ++ [Call.set_nesting_level 3] }
        ∧ (0 : Int) ≤ 3 ∧ (3 : Int) ≤ 4) :=
  ⟨(nesting_keys idleCamera GLFW_KEY_3 3 0 GLFW_PRESS 0 (initWorld none) (by decide)).1 rfl,
   (nesting_keys idleCamera GLFW_KEY_3 3 0 GLFW_PRESS 0 (initWorld (some ⟨1, false⟩))
      (by decide)).2 ⟨1, false⟩ rfl (by decide)⟩

/-! ## Held keys -/

theorem nestingChain_other (key action : Int) (w : World)
    (hk : ∀ n, (key, n) ∉ nestingKeys) : nestingChain key action w = w := by
  have h0 : key ≠ GLFW_KEY_0 := fun h => hk 0 (by simp [nestingKeys, h])
  have h1 : key ≠ GLFW_KEY_1 := fun h => hk 1 (by simp [nestingKeys, h])
  have h2 : key ≠ GLFW_KEY_2 := fun h => hk 2 (by simp [nestingKeys, h])
  have h3 : key ≠ GLFW_KEY_3 := fun h => hk 3 (by simp [nestingKeys, h])
  have h4 : key ≠ GLFW_KEY_4 := fun h => hk 4 (by simp [nestingKeys, h])
  unfold nestingChain
  cases w.g_menger with
  | none => rfl
  | some m => simp [h0, h1, h2, h3, h4]

/-- C10: for each of the keys W, S, A, D, Left, Right, Down, Up, with any
modifiers: when the action is not release, `KeyCallback` makes exactly the
one camera call of the key table and changes nothing but the camera (no
scene-state field, no provider call); when the action is release it makes no
call and leaves the camera as it is. -/
theorem held_keys (cam : CameraMethods) (sc action mods : Int) (w : World) :
    (action ≠ GLFW_RELEASE →
      KeyCallback cam GLFW_KEY_W sc action mods w
        = w.camera (Call.strafe_forward 1) (cam.strafe_forward 1)
      ∧ KeyCallback cam GLFW_KEY_S sc action mods w
        = w.camera (Call.strafe_forward (-1)) (cam.strafe_forward (-1))
      ∧ KeyCallback cam GLFW_KEY_A sc action mods w
        = w.camera (Call.strafe_tangent (-1)) (cam.strafe_tangent (-1))
      ∧ KeyCallback cam GLFW_KEY_D sc action mods w
        = w.camera (Call.strafe_tangent 1) (cam.strafe_tangent 1)
      ∧ KeyCallback cam GLFW_KEY_LEFT sc action mods w
        = w.camera (Call.roll (-1)) (cam.roll (-1))
      ∧ KeyCallback cam GLFW_KEY_RIGHT sc action mods w
        = w.camera (Call.roll 1) (cam.roll 1)
      ∧ KeyCallback cam GLFW_KEY_DOWN sc action mods w
        = w.camera (Call.strafe_up (-1)) (cam.strafe_up (-1))
      ∧ KeyCallback cam GLFW_KEY_UP sc action mods w
        = w.camera (Call.strafe_up 1) (cam.strafe_up 1))
    ∧ (∀ f : Camera → Camera, ∀ c : Call,
        (w.camera c f).calls = w.calls ++ [c]
        ∧ (w.camera c f).save_obj = w.save_obj
        ∧ (w.camera c f).wireframe = w.wireframe
        ∧ (w.camera c f).toggleFaces = w.toggleFaces
        ∧ (w.camera c f).tess_level_inner = w.tess_level_inner
        ∧ (w.camera c f).tess_level_outer = w.tess_level_outer
        ∧ (w.camera c f).g_menger = w.g_menger)
    ∧ (action = GLFW_RELEASE →
        ∀ key ∈ [GLFW_KEY_W, GLFW_KEY_S, GLFW_KEY_A, GLFW_KEY_D, GLFW_KEY_LEFT,
          GLFW_KEY_RIGHT, GLFW_KEY_DOWN, GLFW_KEY_UP],
        (KeyCallback cam key sc action mods w).calls = w.calls
        ∧ (KeyCallback cam key sc action mods w).g_camera = w.g_camera) := by
  refine ⟨fun ha => ?_, fun f c => ⟨rfl, rfl, rfl, rfl, rfl, rfl, rfl⟩, fun ha key hkey => ?_⟩
  · have ha0 : ¬ action = 0 := ha
    refine ⟨?_, ?_, ?_, ?_, ?_, ?_, ?_, ?_⟩ <;>
    · unfold KeyCallback
      rw [nestingChain_other _ _ _ (by simp [nestingKeys, GLFW_KEY_PERIOD, GLFW_KEY_ESCAPE, GLFW_KEY_S, GLFW_KEY_W, GLFW_KEY_A,
    GLFW_KEY_D, GLFW_KEY_F, GLFW_KEY_LEFT, GLFW_KEY_RIGHT, GLFW_KEY_DOWN, GLFW_KEY_UP,
    GLFW_KEY_C, GLFW_KEY_MINUS, GLFW_KEY_EQUAL, GLFW_KEY_COMMA, GLFW_KEY_0, GLFW_KEY_1,
    GLFW_KEY_2, GLFW_KEY_3, GLFW_KEY_4, GLFW_PRESS, GLFW_RELEASE, GLFW_MOD_CONTROL])]
      simp [keyChain, ha0, GLFW_KEY_PERIOD, GLFW_KEY_ESCAPE, GLFW_KEY_S, GLFW_KEY_W, GLFW_KEY_A,
    GLFW_KEY_D, GLFW_KEY_F, GLFW_KEY_LEFT, GLFW_KEY_RIGHT, GLFW_KEY_DOWN, GLFW_KEY_UP,
    GLFW_KEY_C, GLFW_KEY_MINUS, GLFW_KEY_EQUAL, GLFW_KEY_COMMA, GLFW_KEY_0, GLFW_KEY_1,
    GLFW_KEY_2, GLFW_KEY_3, GLFW_KEY_4, GLFW_PRESS, GLFW_RELEASE, GLFW_MOD_CONTROL]
  · subst ha
    simp only [List.mem_cons, List.mem_singleton, List.not_mem_nil, or_false] at hkey
    rcases hkey with rfl | rfl | rfl | rfl | rfl | rfl | rfl | rfl <;>
    · unfold KeyCallback
      rw [nestingChain_other _ _ _ (by simp [nestingKeys, GLFW_KEY_PERIOD, GLFW_KEY_ESCAPE, GLFW_KEY_S, GLFW_KEY_W, GLFW_KEY_A,
    GLFW_KEY_D, GLFW_KEY_F, GLFW_KEY_LEFT, GLFW_KEY_RIGHT, GLFW_KEY_DOWN, GLFW_KEY_UP,
    GLFW_KEY_C, GLFW_KEY_MINUS, GLFW_KEY_EQUAL, GLFW_KEY_COMMA, GLFW_KEY_0, GLFW_KEY_1,
    GLFW_KEY_2, GLFW_KEY_3, GLFW_KEY_4, GLFW_PRESS, GLFW_RELEASE, GLFW_MOD_CONTROL])]
      by_cases hm : mods = 2 <;> simp [keyChain, hm, GLFW_KEY_PERIOD, GLFW_KEY_ESCAPE, GLFW_KEY_S, GLFW_KEY_W, GLFW_KEY_A,
    GLFW_KEY_D, GLFW_KEY_F, GLFW_KEY_LEFT, GLFW_KEY_RIGHT, GLFW_KEY_DOWN, GLFW_KEY_UP,
    GLFW_KEY_C, GLFW_KEY_MINUS, GLFW_KEY_EQUAL, GLFW_KEY_COMMA, GLFW_KEY_0, GLFW_KEY_1,
    GLFW_KEY_2, GLFW_KEY_3, GLFW_KEY_4, GLFW_PRESS, GLFW_RELEASE, GLFW_MOD_CONTROL]

/-- Witness for C10: the key W, pressed and then released, from the start
state. -/
theorem held_keys_witness :
    KeyCallback idleCamera GLFW_KEY_W 0 GLFW_PRESS 0 (initWorld none)
      = (initWorld none).camera (Call.strafe_forward 1) (idleCamera.strafe_forward 1)
    ∧ (KeyCallback idleCamera GLFW_KEY_W 0 GLFW_RELEASE 0 (initWorld none)).calls
      = (initWorld none).calls :=
  ⟨((held_keys idleCamera 0 GLFW_PRESS 0 (initWorld none)).1 (by decide)).1,
   ((held_keys idleCamera 0 GLFW_RELEASE 0 (initWorld none)).2.2 rfl GLFW_KEY_W
      (by simp)).1⟩

/-! ## Frame scheduler -/

theorem exportStep_out (s : Session) :
    (exportStep s).out
      = s.out ++ (if s.world.save_obj
          then [Output.SaveObj "geometry.obj" s.obj_vertices s.obj_faces] else [])
    ∧ (exportStep s).world.save_obj = false
    ∧ (exportStep s).obj_vertices = s.obj_vertices
    ∧ (exportStep s).obj_faces = s.obj_faces
    ∧ (exportStep s).world.g_menger = s.world.g_menger
    ∧ (exportStep s).world.should_close = s.world.should_close := by
  unfold exportStep
  cases h : s.world.save_obj <;> simp [h]

theorem regenStep_clean (gen : Provider → Mesh → Mesh) (s : Session)
    (h : ∀ m, s.world.g_menger = some m → m.is_dirty = false) : regenStep gen s = s := by
  unfold regenStep
  cases hm : s.world.g_menger with
  | none => rfl
  | some m => simp [h m hm]

theorem regenStep_dirty (gen : Provider → Mesh → Mesh) (s : Session) (m : Provider)
    (hm : s.world.g_menger = some m) (hd : m.is_dirty = true) :
    regenStep gen s
      = { s with
          obj_vertices := (gen m ([], [])).1
          obj_faces := (gen m ([], [])).2
          world := { s.world with g_menger := some m.set_clean }
          out := s.out ++ [Output.glBufferData (gen m ([], [])).1 (gen m ([], [])).2] } := by
  unfold regenStep
  rw [hm]
  simp [hd]

theorem regenStep_frame (gen : Provider → Mesh → Mesh) (s : Session) :
    (regenStep gen s).world.save_obj = s.world.save_obj
    ∧ (regenStep gen s).world.should_close = s.world.should_close
    ∧ (regenStep gen s).exports = s.exports
    ∧ ∃ up, (regenStep gen s).out = s.out ++ up ∧ ∀ o ∈ up, o.isSaveObj = false := by
  unfold regenStep
  cases hm : s.world.g_menger with
  | none => exact ⟨rfl, rfl, rfl, [], by simp, by simp⟩
  | some m =>
    cases hd : m.is_dirty with
    | false => simp [hd]
    | true => simp [hd, Session.exports, List.filter_append, Output.isSaveObj]

theorem drawStep_exports (s : Session) :
    (drawStep s).exports = s.exports ∧ (drawStep s).uploads = s.uploads := by
  simp [drawStep, Session.exports, Session.uploads, List.filter_append, Output.isSaveObj,
    Output.isUpload]

theorem frame_exports (gen : Provider → Mesh → Mesh) (s : Session) :
    (frame gen s).exports = s.exports + (if s.world.save_obj then 1 else 0)
    ∧ (frame gen s).world.save_obj = false
    ∧ (frame gen s).world.should_close = s.world.should_close := by
  have he := exportStep_out s
  have hr := regenStep_frame gen (exportStep s)
  have hd := drawStep_exports (regenStep gen (exportStep s))
  refine ⟨?_, ?_, ?_⟩
  · unfold frame
    rw [hd.1, hr.2.2.1]
    unfold Session.exports
    rw [he.1, List.filter_append, List.length_append]
    cases s.world.save_obj <;> simp [Output.isSaveObj]
  · show (regenStep gen (exportStep s)).world.save_obj = false
    rw [hr.1, he.2.1]
  · show (regenStep gen (exportStep s)).world.should_close = s.world.should_close
    rw [hr.2.1, he.2.2.2.2.2]

theorem camera_scene (w : World) (c : Call) (f : Camera → Camera) :
    SameScene w (w.camera c f) := ⟨rfl, rfl, rfl⟩

theorem rightDrag_scene (cam : CameraMethods) (y : ℚ) (w : World) :
    SameScene w (rightDrag cam y w) := by
  unfold rightDrag
  exact ite_elim (SameScene w) (fun _ => camera_scene w _ _) fun _ =>
    ite_elim (SameScene w) (fun _ => camera_scene w _ _) fun _ => ⟨rfl, rfl, rfl⟩

theorem middleDragY_scene (cam : CameraMethods) (y : ℚ) (w : World) :
    SameScene w (middleDragY cam y w) := by
  unfold middleDragY
  exact ite_elim (SameScene w) (fun _ => camera_scene w _ _) fun _ =>
    ite_elim (SameScene w) (fun _ => camera_scene w _ _) fun _ => ⟨rfl, rfl, rfl⟩

theorem middleDragX_scene (cam : CameraMethods) (x : ℚ) (w : World) :
    SameScene w (middleDragX cam x w) := by
  unfold middleDragX
  exact ite_elim (SameScene w) (fun _ => camera_scene w _ _) fun _ =>
    ite_elim (SameScene w) (fun _ => camera_scene w _ _) fun _ => ⟨rfl, rfl, rfl⟩

theorem MousePosCallback_scene (cam : CameraMethods) (x y : ℚ) (w : World) :
    SameScene w (MousePosCallback cam x y w) := by
  have hr := rightDrag_scene cam y w
  have hy := middleDragY_scene cam y w
  have hx := middleDragX_scene cam x (middleDragY cam y w)
  unfold MousePosCallback
  refine ite_elim (SameScene w) (fun _ => ⟨rfl, rfl, rfl⟩) fun _ => ?_
  show SameScene w (if w.g_current_button = GLFW_MOUSE_BUTTON_LEFT then _ else _)
  exact ite_elim (SameScene w) (fun _ => camera_scene w _ _) fun _ =>
    ite_elim (SameScene w) (fun _ => hr) fun _ =>
    ite_elim (SameScene w)
      (fun _ => ⟨hx.1.trans hy.1, hx.2.1.trans hy.2.1, hx.2.2.trans hy.2.2⟩)
      fun _ => ⟨rfl, rfl, rfl⟩

theorem deliver_nonkey (cam : CameraMethods) (e : Event) (w : World) (h : e.isKey = false) :
    SameScene w (deliver cam e w) := by
  cases e with
  | key k sc a m => simp [Event.isKey] at h
  | cursorPos x y => exact MousePosCallback_scene cam x y w
  | mouseButton b a m => exact ⟨rfl, rfl, rfl⟩

theorem keyChain_provider (cam : CameraMethods) (key action mods : Int) (w : World) :
    (keyChain cam key action mods w).g_menger = w.g_menger :=
  keyChain_cases (fun v => v.g_menger = w.g_menger) cam key action mods w
    rfl rfl (fun _ _ => rfl) rfl rfl rfl (fun _ => rfl) (fun _ => rfl) (fun _ => rfl)
    (fun _ => rfl) rfl

theorem deliver_provider (cam : CameraMethods) (e : Event) (w : World)
    (h : e.isNestingKey = false) : (deliver cam e w).g_menger = w.g_menger := by
  cases e with
  | key k sc a m =>
    have hk : ∀ n, (k, n) ∉ nestingKeys := by
      intro n hn
      have : k ∈ nestingKeys.map Prod.fst := List.mem_map_of_mem Prod.fst hn
      simp only [Event.isNestingKey, decide_eq_false_iff_not] at h
      exact h this
    show (nestingChain k a (keyChain cam k a m w)).g_menger = w.g_menger
    rw [nestingChain_other _ _ _ hk]
    exact keyChain_provider cam k a m w
  | cursorPos x y => exact (MousePosCallback_scene cam x y w).2.2
  | mouseButton b a m => rfl

theorem foldl_deliver_nonkey (cam : CameraMethods) (evs : List Event) :
    ∀ w : World, (∀ e ∈ evs, e.isKey = false) →
      SameScene w (evs.foldl (fun v e => deliver cam e v) w) := by
  induction evs with
  | nil => intro w _; exact ⟨rfl, rfl, rfl⟩
  | cons e es ih =>
    intro w h
    have h1 := deliver_nonkey cam e w (h e (List.mem_cons_self e es))
    have h2 := ih (deliver cam e w) (fun e' he' => h e' (List.mem_cons_of_mem e he'))
    exact ⟨h2.1.trans h1.1, h2.2.1.trans h1.2.1, h2.2.2.trans h1.2.2⟩

theorem foldl_deliver_provider (cam : CameraMethods) (evs : List Event) :
    ∀ w : World, (∀ e ∈ evs, e.isNestingKey = false) →
      (evs.foldl (fun v e => deliver cam e v) w).g_menger = w.g_menger := by
  induction evs with
  | nil => intro w _; rfl
  | cons e es ih =>
    intro w h
    have h1 := deliver_provider cam e w (h e (List.mem_cons_self e es))
    have h2 := ih (deliver cam e w) (fun e' he' => h e' (List.mem_cons_of_mem e he'))
    exact h2.trans h1

theorem frame_clean (gen : Provider → Mesh → Mesh) (s : Session)
    (h : ∀ m, s.world.g_menger = some m → m.is_dirty = false) :
    (frame gen s).obj_vertices = s.obj_vertices
    ∧ (frame gen s).obj_faces = s.obj_faces
    ∧ (frame gen s).world.g_menger = s.world.g_menger
    ∧ (frame gen s).uploads = s.uploads := by
  have he := exportStep_out s
  have hr : regenStep gen (exportStep s) = exportStep s :=
    regenStep_clean gen (exportStep s) (fun m hm => h m (he.2.2.2.2.1 ▸ hm))
  unfold frame
  rw [hr]
  refine ⟨he.2.2.1, he.2.2.2.1, he.2.2.2.2.1, ?_⟩
  rw [(drawStep_exports (exportStep s)).2]
  unfold Session.uploads
  rw [he.1, List.filter_append]
  cases s.world.save_obj <;> simp [Output.isUpload]

theorem frame_dirty (gen : Provider → Mesh → Mesh) (s : Session) (m : Provider)
    (hm : s.world.g_menger = some m) (hd : m.is_dirty = true) :
    (frame gen s).obj_vertices = (gen m ([], [])).1
    ∧ (frame gen s).obj_faces = (gen m ([], [])).2
    ∧ (frame gen s).world.g_menger = some m.set_clean
    ∧ (frame gen s).uploads = s.uploads + 1
    ∧ (frame gen s).out
        = (exportStep s).out
          ++ [Output.glBufferData (gen m ([], [])).1 (gen m ([], [])).2,
              Output.drawGeometry ((gen m ([], [])).2.length * 3),
              Output.drawFloor s.world.wireframe s.world.tess_level_outer
                s.world.tess_level_inner s.world.toggleFaces,
              Output.drawOcean s.world.wireframe s.world.tess_level_outer
                s.world.tess_level_inner s.world.toggleFaces] := by
  have he := exportStep_out s
  have hr := regenStep_dirty gen (exportStep s) m (he.2.2.2.2.1.trans hm) hd
  have hw : (exportStep s).world.wireframe = s.world.wireframe
      ∧ (exportStep s).world.tess_level_outer = s.world.tess_level_outer
      ∧ (exportStep s).world.tess_level_inner = s.world.tess_level_inner
      ∧ (exportStep s).world.toggleFaces = s.world.toggleFaces := by
    unfold exportStep
    cases s.world.save_obj <;> simp
  unfold frame
  rw [hr]
  refine ⟨rfl, rfl, rfl, ?_, ?_⟩
  · unfold Session.uploads
    simp only [drawStep, List.filter_append, List.length_append]
    rw [he.1, List.filter_append]
    cases s.world.save_obj <;> simp [Output.isUpload]
  · simp [drawStep, hw]

/-- C6: in every frame that starts with `save_obj` set, the first thing the
frame does to the outside is the one call `SaveObj("geometry.obj", V, F)`
with V and F the solid buffers as they were at the start of the frame, and
nothing later in the frame is an export; also when the provider is dirty in
that frame, where the export comes before the upload of the regenerated
buffers, which the frame then holds. -/
theorem export_precedes_regeneration (gen : Provider → Mesh → Mesh) (s : Session)
    (h : s.world.save_obj = true) :
    (∃ rest : List Output,
      (frame gen s).out
        = s.out ++ Output.SaveObj "geometry.obj" s.obj_vertices s.obj_faces :: rest
      ∧ ∀ o ∈ rest, o.isSaveObj = false)
    ∧ (∀ m : Provider, s.world.g_menger = some m → m.is_dirty = true →
        (frame gen s).out
          = s.out ++
            [Output.SaveObj "geometry.obj" s.obj_vertices s.obj_faces,
             Output.glBufferData (gen m ([], [])).1 (gen m ([], [])).2,
             Output.drawGeometry ((gen m ([], [])).2.length * 3),
             Output.drawFloor s.world.wireframe s.world.tess_level_outer
               s.world.tess_level_inner s.world.toggleFaces,
             Output.drawOcean s.world.wireframe s.world.tess_level_outer
               s.world.tess_level_inner s.world.toggleFaces]
        ∧ (frame gen s).obj_vertices = (gen m ([], [])).1
        ∧ (frame gen s).obj_faces = (gen m ([], [])).2) := by
  have he := exportStep_out s
  rw [h] at he
  constructor
  · obtain ⟨up, hup, hno⟩ := (regenStep_frame gen (exportStep s)).2.2.2
    refine ⟨up ++ [Output.drawGeometry ((regenStep gen (exportStep s)).obj_faces.length * 3),
        Output.drawFloor (regenStep gen (exportStep s)).world.wireframe
          (regenStep gen (exportStep s)).world.tess_level_outer
          (regenStep gen (exportStep s)).world.tess_level_inner
          (regenStep gen (exportStep s)).world.toggleFaces,
        Output.drawOcean (regenStep gen (exportStep s)).world.wireframe
          (regenStep gen (exportStep s)).world.tess_level_outer
          (regenStep gen (exportStep s)).world.tess_level_inner
          (regenStep gen (exportStep s)).world.toggleFaces], ?_, ?_⟩
    · show (regenStep gen (exportStep s)).out ++ _ = _
      rw [hup, he.1]
      simp
    · intro o ho
      rcases List.mem_append.1 ho with ho | ho
      · exact hno o ho
      · simp only [List.mem_cons, List.mem_singleton, List.not_mem_nil, or_false] at ho
        rcases ho with rfl | rfl | rfl <;> rfl
  · intro m hm hd
    have hf := frame_dirty gen s m hm hd
    refine ⟨?_, hf.1, hf.2.1⟩
    rw [hf.2.2.2.2, he.1]
    simp

/-- Witness for C6: a frame that starts with the export requested, a dirty
provider and one vertex in the solid buffer exports that vertex before the
buffer is replaced by the (here empty) regenerated geometry. -/
theorem export_precedes_regeneration_witness :
    (∃ rest : List Output,
      (frame (fun _ g => g)
          ⟨{ initWorld (some ⟨1, true⟩) with save_obj := true }, [⟨1, 2, 3, 1⟩], [], []⟩).out
        = ([] : List Output) ++ Output.SaveObj "geometry.obj" [⟨1, 2, 3, 1⟩] [] :: rest
      ∧ ∀ o ∈ rest, o.isSaveObj = false)
    ∧ (frame (fun _ g => g)
          ⟨{ initWorld (some ⟨1, true⟩) with save_obj := true }, [⟨1, 2, 3, 1⟩], [], []⟩).obj_vertices
        = [] :=
  ⟨(export_precedes_regeneration (fun _ g => g)
      ⟨{ initWorld (some ⟨1, true⟩) with save_obj := true }, [⟨1, 2, 3, 1⟩], [], []⟩ rfl).1,
   ((export_precedes_regeneration (fun _ g => g)
      ⟨{ initWorld (some ⟨1, true⟩) with save_obj := true }, [⟨1, 2, 3, 1⟩], [], []⟩ rfl).2
      ⟨1, true⟩ rfl rfl).2.1⟩

theorem mainLoop_cons (cam : CameraMethods) (gen : Provider → Mesh → Mesh)
    (evs : List Event) (rest : List (List Event)) (s : Session)
    (h : s.world.should_close = false) :
    mainLoop cam gen (evs :: rest) s
      = mainLoop cam gen rest (pollEvents cam evs (frame gen s)) := by
  simp [mainLoop, h]

theorem mainLoop_closed (cam : CameraMethods) (gen : Provider → Mesh → Mesh)
    (polls : List (List Event)) (s : Session) (h : s.world.should_close = true) :
    mainLoop cam gen polls s = s := by
  cases polls with
  | nil => rfl
  | cons evs rest => simp [mainLoop, h]

theorem mainLoop_quiet (cam : CameraMethods) (gen : Provider → Mesh → Mesh)
    (polls : List (List Event)) :
    ∀ s : Session, (∀ l ∈ polls, ∀ e ∈ l, Event.isKey e = false) →
      s.world.save_obj = false →
      (mainLoop cam gen polls s).exports = s.exports
      ∧ (mainLoop cam gen polls s).world.save_obj = false := by
  induction polls with
  | nil => intro s _ h; exact ⟨rfl, h⟩
  | cons evs rest ih =>
    intro s hk h
    cases hc : s.world.should_close with
    | true => rw [mainLoop_closed cam gen _ s hc]; exact ⟨rfl, h⟩
    | false =>
      rw [mainLoop_cons cam gen evs rest s hc]
      have hf := frame_exports gen s
      have hp := foldl_deliver_nonkey cam evs (frame gen s).world
        (hk evs (List.mem_cons_self evs rest))
      have hn := ih (pollEvents cam evs (frame gen s))
        (fun l hl => hk l (List.mem_cons_of_mem evs hl)) (hp.1.trans hf.2.1)
      refine ⟨hn.1.trans ?_, hn.2⟩
      show (frame gen s).exports = s.exports
      rw [hf.1, h]
      rfl

theorem ctrl_s_release (cam : CameraMethods) (sc : Int) (w : World) :
    KeyCallback cam GLFW_KEY_S sc GLFW_RELEASE GLFW_MOD_CONTROL w = { w with save_obj := true } := by
  unfold KeyCallback
  rw [nestingChain_other _ _ _ (by simp [nestingKeys, GLFW_KEY_S, GLFW_KEY_0, GLFW_KEY_1,
    GLFW_KEY_2, GLFW_KEY_3, GLFW_KEY_4])]
  simp [keyChain, GLFW_KEY_ESCAPE, GLFW_KEY_S, GLFW_PRESS, GLFW_RELEASE, GLFW_MOD_CONTROL]

/-- C7: `save_obj` is a one-shot flag.  A frame performs exactly one export
if the flag is set when the frame starts and none otherwise, and the flag is
false after the frame.  Hence after one Ctrl+S release, any run of one or
more loop iterations in which no further key event arrives (pointer and
button events may) performs exactly one export in all, and ends with the
flag false. -/
theorem export_is_one_shot (cam : CameraMethods) (gen : Provider → Mesh → Mesh) (s : Session) :
    ((frame gen s).exports = s.exports + (if s.world.save_obj then 1 else 0)
      ∧ (frame gen s).world.save_obj = false)
    ∧ (∀ (sc : Int) (evs : List Event) (rest : List (List Event)),
        s.world.should_close = false →
        (∀ l ∈ evs :: rest, ∀ e ∈ l, Event.isKey e = false) →
        (mainLoop cam gen (evs :: rest)
            { s with
              world := KeyCallback cam GLFW_KEY_S sc GLFW_RELEASE GLFW_MOD_CONTROL s.world }).exports
          = s.exports + 1
        ∧ (mainLoop cam gen (evs :: rest)
            { s with
              world := KeyCallback cam GLFW_KEY_S sc GLFW_RELEASE GLFW_MOD_CONTROL s.world }).world.save_obj
          = false) := by
  have hf := frame_exports gen s
  refine ⟨⟨hf.1, hf.2.1⟩, ?_⟩
  intro sc evs rest hc hk
  rw [ctrl_s_release]
  have hc1 : ({ s with world := { s.world with save_obj := true } } : Session).world.should_close
      = false := hc
  rw [mainLoop_cons cam gen evs rest _ hc1]
  have hf1 := frame_exports gen { s with world := { s.world with save_obj := true } }
  have hp := foldl_deliver_nonkey cam evs
    (frame gen { s with world := { s.world with save_obj := true } }).world
    (hk evs (List.mem_cons_self evs rest))
  have hq := mainLoop_quiet cam gen rest
    (pollEvents cam evs (frame gen { s with world := { s.world with save_obj := true } }))
    (fun l hl => hk l (List.mem_cons_of_mem evs hl)) (hp.1.trans hf1.2.1)
  refine ⟨hq.1.trans ?_, hq.2⟩
  show (frame gen { s with world := { s.world with save_obj := true } }).exports = s.exports + 1
  rw [hf1.1]
  rfl

/-- Witness for C7: from the start state, Ctrl+S is released, then three
loop iterations run, with a button press and a pointer move in between;
one export is performed in all. -/
theorem export_is_one_shot_witness :
    (mainLoop idleCamera (fun _ g => g)
        [[Event.mouseButton 0 1 0], [Event.cursorPos 4 5], []]
        { initSession none with
          world := KeyCallback idleCamera GLFW_KEY_S 31 GLFW_RELEASE GLFW_MOD_CONTROL
            (initSession none).world }).exports
      = (initSession none).exports + 1
    ∧ (mainLoop idleCamera (fun _ g => g)
        [[Event.mouseButton 0 1 0], [Event.cursorPos 4 5], []]
        { initSession none with
          world := KeyCallback idleCamera GLFW_KEY_S 31 GLFW_RELEASE GLFW_MOD_CONTROL
            (initSession none).world }).world.save_obj
      = false :=
  (export_is_one_shot idleCamera (fun _ g => g) (initSession none)).2 31
    [Event.mouseButton 0 1 0] [[Event.cursorPos 4 5], []] rfl (by decide)

theorem mainLoop_clean (cam : CameraMethods) (gen : Provider → Mesh → Mesh)
    (polls : List (List Event)) :
    ∀ (s : Session) (c : Provider),
      (∀ l ∈ polls, ∀ e ∈ l, Event.isNestingKey e = false) →
      s.world.g_menger = some c → c.is_dirty = false →
      (mainLoop cam gen polls s).obj_vertices = s.obj_vertices
      ∧ (mainLoop cam gen polls s).obj_faces = s.obj_faces
      ∧ (mainLoop cam gen polls s).world.g_menger = some c
      ∧ (mainLoop cam gen polls s).uploads = s.uploads := by
  induction polls with
  | nil => intro s c _ hm _; exact ⟨rfl, rfl, hm, rfl⟩
  | cons evs rest ih =>
    intro s c hk hm hd
    cases hc : s.world.should_close with
    | true => rw [mainLoop_closed cam gen _ s hc]; exact ⟨rfl, rfl, hm, rfl⟩
    | false =>
      rw [mainLoop_cons cam gen evs rest s hc]
      have hf := frame_clean gen s (fun m' hm' => by
        have : m' = c := Option.some.inj (hm'.symm.trans hm)
        rw [this]; exact hd)
      have hp : (pollEvents cam evs (frame gen s)).world.g_menger = some c :=
        (foldl_deliver_provider cam evs (frame gen s).world
          (hk evs (List.mem_cons_self evs rest))).trans (hf.2.2.1.trans hm)
      have hn := ih (pollEvents cam evs (frame gen s)) c
        (fun l hl => hk l (List.mem_cons_of_mem evs hl)) hp hd
      exact ⟨hn.1.trans hf.1, hn.2.1.trans hf.2.1, hn.2.2.1, hn.2.2.2.trans hf.2.2.2⟩

/-- C8: with the provider a dirty flag that `set_clean` clears and
`set_nesting_level` sets: a frame that finds the provider dirty replaces the
solid buffers by what `generate_geometry` produces from empty buffers (the
old contents play no part), regenerates exactly once, and leaves the
provider clean; from then on, whatever events arrive other than
nesting-level key events and however many loop iterations run, the solid
buffers and the provider stay as they are and no regeneration is performed;
in particular a second frame changes neither. -/
theorem dirty_round_trip (cam : CameraMethods) (gen : Provider → Mesh → Mesh) (s : Session)
    (m : Provider) (hm : s.world.g_menger = some m) (hd : m.is_dirty = true) :
    ((frame gen s).obj_vertices = (gen m ([], [])).1
      ∧ (frame gen s).obj_faces = (gen m ([], [])).2
      ∧ (frame gen s).uploads = s.uploads + 1
      ∧ (frame gen s).world.g_menger = some m.set_clean
      ∧ m.set_clean.is_dirty = false)
    ∧ (∀ (evs : List Event) (polls : List (List Event)),
        (∀ l ∈ evs :: polls, ∀ e ∈ l, Event.isNestingKey e = false) →
        (mainLoop cam gen polls (pollEvents cam evs (frame gen s))).obj_vertices
          = (frame gen s).obj_vertices
        ∧ (mainLoop cam gen polls (pollEvents cam evs (frame gen s))).obj_faces
          = (frame gen s).obj_faces
        ∧ (mainLoop cam gen polls (pollEvents cam evs (frame gen s))).world.g_menger
          = some m.set_clean
        ∧ (mainLoop cam gen polls (pollEvents cam evs (frame gen s))).uploads
          = (frame gen s).uploads)
    ∧ ((frame gen (frame gen s)).obj_vertices = (frame gen s).obj_vertices
      ∧ (frame gen (frame gen s)).obj_faces = (frame gen s).obj_faces
      ∧ (frame gen (frame gen s)).world.g_menger = (frame gen s).world.g_menger
      ∧ (frame gen (frame gen s)).uploads = (frame gen s).uploads) := by
  have hf := frame_dirty gen s m hm hd
  have hclean : m.set_clean.is_dirty = false := rfl
  refine ⟨⟨hf.1, hf.2.1, hf.2.2.2.1, hf.2.2.1, hclean⟩, ?_, ?_⟩
  · intro evs polls hk
    have hp : (pollEvents cam evs (frame gen s)).world.g_menger = some m.set_clean :=
      (foldl_deliver_provider cam evs (frame gen s).world
        (hk evs (List.mem_cons_self evs polls))).trans hf.2.2.1
    exact mainLoop_clean cam gen polls (pollEvents cam evs (frame gen s)) m.set_clean
      (fun l hl => hk l (List.mem_cons_of_mem evs hl)) hp hclean
  · exact frame_clean gen (frame gen s) (fun m' hm' => by
      have : m' = m.set_clean := Option.some.inj (hm'.symm.trans hf.2.2.1)
      rw [this]; exact hclean)

/-- Witness for C8: the first frame of a session whose provider is dirty at
level 1 and whose solid buffer holds a stale vertex, with a provider that
appends the vertex (7, 0, 0, 1) to the buffers it is given; then a press of W, a pointer
move and two more loop iterations. -/
theorem dirty_round_trip_witness :
    (frame (fun _ g => (g.1 ++ [⟨7, 0, 0, 1⟩], g.2))
        ⟨initWorld (some ⟨1, true⟩), [⟨9, 9, 9, 1⟩], [], []⟩).obj_vertices = [⟨7, 0, 0, 1⟩]
    ∧ (mainLoop idleCamera (fun _ g => (g.1 ++ [⟨7, 0, 0, 1⟩], g.2))
        [[Event.cursorPos 4 5], []]
        (pollEvents idleCamera [Event.key GLFW_KEY_W 0 GLFW_PRESS 0]
          (frame (fun _ g => (g.1 ++ [⟨7, 0, 0, 1⟩], g.2))
            ⟨initWorld (some ⟨1, true⟩), [⟨9, 9, 9, 1⟩], [], []⟩))).uploads
      = (frame (fun _ g => (g.1 ++ [⟨7, 0, 0, 1⟩], g.2))
            ⟨initWorld (some ⟨1, true⟩), [⟨9, 9, 9, 1⟩], [], []⟩).uploads := by
  have h := dirty_round_trip idleCamera (fun _ g => (g.1 ++ [⟨7, 0, 0, 1⟩], g.2))
    ⟨initWorld (some ⟨1, true⟩), [⟨9, 9, 9, 1⟩], [], []⟩ ⟨1, true⟩ rfl rfl
  have hk : ∀ l ∈ [Event.key GLFW_KEY_W 0 GLFW_PRESS 0] :: [[Event.cursorPos 4 5], []],
      ∀ e ∈ l, Event.isNestingKey e = false := by
    simp [Event.isNestingKey, nestingKeys, GLFW_KEY_W, GLFW_KEY_0, GLFW_KEY_1, GLFW_KEY_2,
      GLFW_KEY_3, GLFW_KEY_4]
  exact ⟨h.1.1, (h.2.1 _ _ hk).2.2.2⟩

/-! ## Zoom -/

theorem zoom_pos (zoom_speed : ℚ) (d : Int) (c : Camera) (h : 0 < c.camera_distance_) :
    0 < (c.zoom zoom_speed d).camera_distance_ := by
  unfold Camera.zoom
  cases c.fps with
  | true => simpa using h
  | false =>
    simp only [Bool.false_eq_true, if_false]
    exact ite_elim (fun v : Camera => 0 < v.camera_distance_) (fun hpos => hpos) (fun _ => h)

theorem zooms_pos (zoom_speed : ℚ) (ds : List Int) :
    ∀ c : Camera, 0 < c.camera_distance_ → 0 < (zooms zoom_speed ds c).camera_distance_ := by
  induction ds with
  | nil => intro c h; exact h
  | cons d ds ih => intro c h; exact ih (c.zoom zoom_speed d) (zoom_pos zoom_speed d c h)

/-- C9: for every step size, every finite sequence of `zoom` calls (with
directions +1 or -1, or any other), and every prefix of it, starting from
the default camera in either mode, the distance is strictly positive after
the calls; and in Orbit mode the guard is what keeps it so: with step 1,
four calls `zoom(+1)` from distance 3 end at distance 1, not at -1. -/
theorem zoom_keeps_distance_positive (zoom_speed : ℚ) (fps : Bool) (ds : List Int) (k : Nat) :
    0 < (zooms zoom_speed (ds.take k) { fps := fps }).camera_distance_
    ∧ (zooms 1 [1, 1, 1, 1] { fps := false }).camera_distance_ = 1 := by
  refine ⟨zooms_pos zoom_speed (ds.take k) _ (by norm_num), ?_⟩
  norm_num [zooms, Camera.zoom]

/-! ## Toggle keys -/

theorem release_ctrl_f (cam : CameraMethods) (sc : Int) (w : World) :
    KeyCallback cam GLFW_KEY_F sc GLFW_RELEASE GLFW_MOD_CONTROL w
      = { w with toggleFaces := !w.toggleFaces } := by
  unfold KeyCallback
  rw [nestingChain_other _ _ _ (by simp [nestingKeys, GLFW_KEY_PERIOD, GLFW_KEY_ESCAPE, GLFW_KEY_S, GLFW_KEY_W, GLFW_KEY_A,
    GLFW_KEY_D, GLFW_KEY_F, GLFW_KEY_LEFT, GLFW_KEY_RIGHT, GLFW_KEY_DOWN, GLFW_KEY_UP,
    GLFW_KEY_C, GLFW_KEY_MINUS, GLFW_KEY_EQUAL, GLFW_KEY_COMMA, GLFW_KEY_0, GLFW_KEY_1,
    GLFW_KEY_2, GLFW_KEY_3, GLFW_KEY_4, GLFW_PRESS, GLFW_RELEASE, GLFW_MOD_CONTROL])]
  simp [keyChain, GLFW_KEY_PERIOD, GLFW_KEY_ESCAPE, GLFW_KEY_S, GLFW_KEY_W, GLFW_KEY_A,
    GLFW_KEY_D, GLFW_KEY_F, GLFW_KEY_LEFT, GLFW_KEY_RIGHT, GLFW_KEY_DOWN, GLFW_KEY_UP,
    GLFW_KEY_C, GLFW_KEY_MINUS, GLFW_KEY_EQUAL, GLFW_KEY_COMMA, GLFW_KEY_0, GLFW_KEY_1,
    GLFW_KEY_2, GLFW_KEY_3, GLFW_KEY_4, GLFW_PRESS, GLFW_RELEASE, GLFW_MOD_CONTROL]

theorem release_f (cam : CameraMethods) (sc mods : Int) (w : World)
    (h : mods ≠ GLFW_MOD_CONTROL) :
    KeyCallback cam GLFW_KEY_F sc GLFW_RELEASE mods w = { w with wireframe := !w.wireframe } := by
  have h2 : ¬ mods = 2 := h
  unfold KeyCallback
  rw [nestingChain_other _ _ _ (by simp [nestingKeys, GLFW_KEY_PERIOD, GLFW_KEY_ESCAPE, GLFW_KEY_S, GLFW_KEY_W, GLFW_KEY_A,
    GLFW_KEY_D, GLFW_KEY_F, GLFW_KEY_LEFT, GLFW_KEY_RIGHT, GLFW_KEY_DOWN, GLFW_KEY_UP,
    GLFW_KEY_C, GLFW_KEY_MINUS, GLFW_KEY_EQUAL, GLFW_KEY_COMMA, GLFW_KEY_0, GLFW_KEY_1,
    GLFW_KEY_2, GLFW_KEY_3, GLFW_KEY_4, GLFW_PRESS, GLFW_RELEASE, GLFW_MOD_CONTROL])]
  simp [keyChain, h2, GLFW_KEY_PERIOD, GLFW_KEY_ESCAPE, GLFW_KEY_S, GLFW_KEY_W, GLFW_KEY_A,
    GLFW_KEY_D, GLFW_KEY_F, GLFW_KEY_LEFT, GLFW_KEY_RIGHT, GLFW_KEY_DOWN, GLFW_KEY_UP,
    GLFW_KEY_C, GLFW_KEY_MINUS, GLFW_KEY_EQUAL, GLFW_KEY_COMMA, GLFW_KEY_0, GLFW_KEY_1,
    GLFW_KEY_2, GLFW_KEY_3, GLFW_KEY_4, GLFW_PRESS, GLFW_RELEASE, GLFW_MOD_CONTROL]

theorem release_c (cam : CameraMethods) (sc mods : Int) (w : World) :
    KeyCallback cam GLFW_KEY_C sc GLFW_RELEASE mods w
      = { w with g_camera := { w.g_camera with fps := !w.g_camera.fps } } := by
  unfold KeyCallback
  rw [nestingChain_other _ _ _ (by simp [nestingKeys, GLFW_KEY_PERIOD, GLFW_KEY_ESCAPE, GLFW_KEY_S, GLFW_KEY_W, GLFW_KEY_A,
    GLFW_KEY_D, GLFW_KEY_F, GLFW_KEY_LEFT, GLFW_KEY_RIGHT, GLFW_KEY_DOWN, GLFW_KEY_UP,
    GLFW_KEY_C, GLFW_KEY_MINUS, GLFW_KEY_EQUAL, GLFW_KEY_COMMA, GLFW_KEY_0, GLFW_KEY_1,
    GLFW_KEY_2, GLFW_KEY_3, GLFW_KEY_4, GLFW_PRESS, GLFW_RELEASE, GLFW_MOD_CONTROL])]
  simp [keyChain, GLFW_KEY_PERIOD, GLFW_KEY_ESCAPE, GLFW_KEY_S, GLFW_KEY_W, GLFW_KEY_A,
    GLFW_KEY_D, GLFW_KEY_F, GLFW_KEY_LEFT, GLFW_KEY_RIGHT, GLFW_KEY_DOWN, GLFW_KEY_UP,
    GLFW_KEY_C, GLFW_KEY_MINUS, GLFW_KEY_EQUAL, GLFW_KEY_COMMA, GLFW_KEY_0, GLFW_KEY_1,
    GLFW_KEY_2, GLFW_KEY_3, GLFW_KEY_4, GLFW_PRESS, GLFW_RELEASE, GLFW_MOD_CONTROL]

/-- C11: on a release event, Ctrl+F (modifier set exactly Ctrl) negates
`toggleFaces` and changes nothing else; F with any other modifier set negates
`wireframe` and changes nothing else; C (any modifiers) negates the camera
flag `fps` and changes nothing else, so eye, look, up, distance and last
cursor stay, as do the tessellation levels and the export flag in all three
cases; and the same release event delivered twice gives back the original
state. -/
theorem toggle_keys (cam : CameraMethods) (sc mods : Int) (w : World) :
    KeyCallback cam GLFW_KEY_F sc GLFW_RELEASE GLFW_MOD_CONTROL w
      = { w with toggleFaces := !w.toggleFaces }
    ∧ (mods ≠ GLFW_MOD_CONTROL →
        KeyCallback cam GLFW_KEY_F sc GLFW_RELEASE mods w
          = { w with wireframe := !w.wireframe })
    ∧ KeyCallback cam GLFW_KEY_C sc GLFW_RELEASE mods w
      = { w with g_camera := { w.g_camera with fps := !w.g_camera.fps } }
    ∧ KeyCallback cam GLFW_KEY_F sc GLFW_RELEASE GLFW_MOD_CONTROL
        (KeyCallback cam GLFW_KEY_F sc GLFW_RELEASE GLFW_MOD_CONTROL w) = w
    ∧ (mods ≠ GLFW_MOD_CONTROL →
        KeyCallback cam GLFW_KEY_F sc GLFW_RELEASE mods
          (KeyCallback cam GLFW_KEY_F sc GLFW_RELEASE mods w) = w)
    ∧ KeyCallback cam GLFW_KEY_C sc GLFW_RELEASE mods
        (KeyCallback cam GLFW_KEY_C sc GLFW_RELEASE mods w) = w := by
  refine ⟨release_ctrl_f cam sc w, release_f cam sc mods w, release_c cam sc mods w, ?_, ?_, ?_⟩
  · rw [release_ctrl_f, release_ctrl_f]
    cases w; simp
  · intro h
    rw [release_f cam sc mods _ h, release_f cam sc mods _ h]
    cases w; simp
  · rw [release_c, release_c]
    cases w; simp

/-- Witness for C11: F released with no modifier, once and twice, from the
start state. -/
theorem toggle_keys_witness :
    KeyCallback idleCamera GLFW_KEY_F 0 GLFW_RELEASE 0 (initWorld none)
      = { initWorld none with wireframe := !(initWorld none).wireframe }
    ∧ KeyCallback idleCamera GLFW_KEY_F 0 GLFW_RELEASE 0
        (KeyCallback idleCamera GLFW_KEY_F 0 GLFW_RELEASE 0 (initWorld none)) = initWorld none :=
  ⟨(toggle_keys idleCamera 0 0 (initWorld none)).2.1 (by decide),
   (toggle_keys idleCamera 0 0 (initWorld none)).2.2.2.2.1 (by decide)⟩

/-! ## Ctrl+S -/

/-- C15: the key S with modifier set exactly Ctrl and an action other than
release (press, repeat) makes the one call `strafe_forward(-1)` and leaves
the export flag as it is; the release with Ctrl sets the export flag and
makes no call; no other event of the key S changes the export flag; hence a
press followed by a release of Ctrl+S moves the camera backward once and
requests the export. -/
theorem ctrl_s_press_strafes (cam : CameraMethods) (sc action mods : Int) (w : World) :
    (action ≠ GLFW_RELEASE →
      KeyCallback cam GLFW_KEY_S sc action GLFW_MOD_CONTROL w
        = w.camera (Call.strafe_forward (-1)) (cam.strafe_forward (-1))
      ∧ (KeyCallback cam GLFW_KEY_S sc action GLFW_MOD_CONTROL w).save_obj = w.save_obj)
    ∧ KeyCallback cam GLFW_KEY_S sc GLFW_PRESS GLFW_MOD_CONTROL w
        = w.camera (Call.strafe_forward (-1)) (cam.strafe_forward (-1))
    ∧ KeyCallback cam GLFW_KEY_S sc GLFW_REPEAT GLFW_MOD_CONTROL w
        = w.camera (Call.strafe_forward (-1)) (cam.strafe_forward (-1))
    ∧ KeyCallback cam GLFW_KEY_S sc GLFW_RELEASE GLFW_MOD_CONTROL w = { w with save_obj := true }
    ∧ (¬ (mods = GLFW_MOD_CONTROL ∧ action = GLFW_RELEASE) →
        (KeyCallback cam GLFW_KEY_S sc action mods w).save_obj = w.save_obj)
    ∧ KeyCallback cam GLFW_KEY_S sc GLFW_RELEASE GLFW_MOD_CONTROL
        (KeyCallback cam GLFW_KEY_S sc GLFW_PRESS GLFW_MOD_CONTROL w)
      = { w with
          g_camera := cam.strafe_forward (-1) w.g_camera
          calls := w.calls ++ [Call.strafe_forward (-1)]
          save_obj := true } := by
  have hheld : ∀ a m : Int, a ≠ GLFW_RELEASE →
      KeyCallback cam GLFW_KEY_S sc a m w
        = w.camera (Call.strafe_forward (-1)) (cam.strafe_forward (-1)) := by
    intro a m ha
    have ha0 : ¬ a = 0 := ha
    unfold KeyCallback
    rw [nestingChain_other _ _ _ (by simp [nestingKeys, GLFW_KEY_PERIOD, GLFW_KEY_ESCAPE, GLFW_KEY_S, GLFW_KEY_W, GLFW_KEY_A,
    GLFW_KEY_D, GLFW_KEY_F, GLFW_KEY_LEFT, GLFW_KEY_RIGHT, GLFW_KEY_DOWN, GLFW_KEY_UP,
    GLFW_KEY_C, GLFW_KEY_MINUS, GLFW_KEY_EQUAL, GLFW_KEY_COMMA, GLFW_KEY_0, GLFW_KEY_1,
    GLFW_KEY_2, GLFW_KEY_3, GLFW_KEY_4, GLFW_PRESS, GLFW_RELEASE, GLFW_MOD_CONTROL])]
    simp [keyChain, ha0, GLFW_KEY_PERIOD, GLFW_KEY_ESCAPE, GLFW_KEY_S, GLFW_KEY_W, GLFW_KEY_A,
    GLFW_KEY_D, GLFW_KEY_F, GLFW_KEY_LEFT, GLFW_KEY_RIGHT, GLFW_KEY_DOWN, GLFW_KEY_UP,
    GLFW_KEY_C, GLFW_KEY_MINUS, GLFW_KEY_EQUAL, GLFW_KEY_COMMA, GLFW_KEY_0, GLFW_KEY_1,
    GLFW_KEY_2, GLFW_KEY_3, GLFW_KEY_4, GLFW_PRESS, GLFW_RELEASE, GLFW_MOD_CONTROL]
  refine ⟨fun ha => ⟨hheld action _ ha, by rw [hheld action _ ha]; rfl⟩,
    hheld _ _ (by decide), hheld _ _ (by decide), ctrl_s_release cam sc w, ?_, ?_⟩
  · intro hne
    by_cases ha : action = GLFW_RELEASE
    · have hm : ¬ mods = 2 := fun hm => hne ⟨hm, ha⟩
      subst ha
      unfold KeyCallback
      rw [nestingChain_other _ _ _ (by simp [nestingKeys, GLFW_KEY_PERIOD, GLFW_KEY_ESCAPE, GLFW_KEY_S, GLFW_KEY_W, GLFW_KEY_A,
    GLFW_KEY_D, GLFW_KEY_F, GLFW_KEY_LEFT, GLFW_KEY_RIGHT, GLFW_KEY_DOWN, GLFW_KEY_UP,
    GLFW_KEY_C, GLFW_KEY_MINUS, GLFW_KEY_EQUAL, GLFW_KEY_COMMA, GLFW_KEY_0, GLFW_KEY_1,
    GLFW_KEY_2, GLFW_KEY_3, GLFW_KEY_4, GLFW_PRESS, GLFW_RELEASE, GLFW_MOD_CONTROL])]
      simp [keyChain, hm, GLFW_KEY_PERIOD, GLFW_KEY_ESCAPE, GLFW_KEY_S, GLFW_KEY_W, GLFW_KEY_A,
    GLFW_KEY_D, GLFW_KEY_F, GLFW_KEY_LEFT, GLFW_KEY_RIGHT, GLFW_KEY_DOWN, GLFW_KEY_UP,
    GLFW_KEY_C, GLFW_KEY_MINUS, GLFW_KEY_EQUAL, GLFW_KEY_COMMA, GLFW_KEY_0, GLFW_KEY_1,
    GLFW_KEY_2, GLFW_KEY_3, GLFW_KEY_4, GLFW_PRESS, GLFW_RELEASE, GLFW_MOD_CONTROL]
    · rw [hheld action mods ha]; rfl
  · rw [hheld _ _ (by decide), ctrl_s_release]
    rfl

/-- Witness for C15: Ctrl+S pressed, then released, from the start state. -/
theorem ctrl_s_press_strafes_witness :
    (KeyCallback idleCamera GLFW_KEY_S 0 GLFW_PRESS GLFW_MOD_CONTROL (initWorld none)
        = (initWorld none).camera (Call.strafe_forward (-1)) (idleCamera.strafe_forward (-1))
      ∧ (KeyCallback idleCamera GLFW_KEY_S 0 GLFW_PRESS GLFW_MOD_CONTROL (initWorld none)).save_obj
        = (initWorld none).save_obj)
    ∧ (KeyCallback idleCamera GLFW_KEY_S 0 GLFW_PRESS 0 (initWorld none)).save_obj
        = (initWorld none).save_obj :=
  ⟨(ctrl_s_press_strafes idleCamera 0 GLFW_PRESS 0 (initWorld none)).1 (by decide),
   (ctrl_s_press_strafes idleCamera 0 GLFW_PRESS 0 (initWorld none)).2.2.2.2.1 (by decide)⟩

/-! ## Right and middle drags -/

theorem MousePosCallback_right (cam : CameraMethods) (x y : ℚ) (w : World)
    (hp : w.g_mouse_pressed = true) (hb : w.g_current_button = GLFW_MOUSE_BUTTON_RIGHT) :
    MousePosCallback cam x y w
      = { rightDrag cam y w with
          g_camera :=
            { (rightDrag cam y w).g_camera with last_y := toFloat y, last_x := toFloat x } } := by
  simp [MousePosCallback, hp, hb, GLFW_MOUSE_BUTTON_RIGHT, GLFW_MOUSE_BUTTON_LEFT]

theorem MousePosCallback_middle (cam : CameraMethods) (x y : ℚ) (w : World)
    (hp : w.g_mouse_pressed = true) (hb : w.g_current_button = GLFW_MOUSE_BUTTON_MIDDLE) :
    MousePosCallback cam x y w
      = { middleDragX cam x (middleDragY cam y w) with
          g_camera :=
            { (middleDragX cam x (middleDragY cam y w)).g_camera with
              last_y := toFloat y, last_x := toFloat x } } := by
  simp [MousePosCallback, hp, hb, GLFW_MOUSE_BUTTON_RIGHT, GLFW_MOUSE_BUTTON_LEFT,
    GLFW_MOUSE_BUTTON_MIDDLE]

/-- C12: a pointer move to (x, y) while a button is pressed and the active
button is the right one makes exactly the one call `zoom(+1)` if the last
cursor's y is above y (`last_y > y`), exactly the one call `zoom(-1)` if
`last_y < y`, and no call at all if `last_y = y`; the calls made do not
depend on x.  Besides the call, the event changes only the last cursor,
which becomes (x, y) converted to `float`. -/
theorem right_drag_zooms (cam : CameraMethods) (x y : ℚ) (w : World)
    (hp : w.g_mouse_pressed = true) (hb : w.g_current_button = GLFW_MOUSE_BUTTON_RIGHT) :
    (w.g_camera.last_y > y →
      (MousePosCallback cam x y w).calls = w.calls ++ [Call.zoom 1]
      ∧ MousePosCallback cam x y w
        = { w with
            g_camera := { cam.zoom 1 w.g_camera with last_y := toFloat y, last_x := toFloat x }
            calls := w.calls ++ [Call.zoom 1] })
    ∧ (w.g_camera.last_y < y →
      (MousePosCallback cam x y w).calls = w.calls ++ [Call.zoom (-1)]
      ∧ MousePosCallback cam x y w
        = { w with
            g_camera :=
              { cam.zoom (-1) w.g_camera with last_y := toFloat y, last_x := toFloat x }
            calls := w.calls ++ [Call.zoom (-1)] })
    ∧ (w.g_camera.last_y = y →
      (MousePosCallback cam x y w).calls = w.calls
      ∧ MousePosCallback cam x y w
        = { w with
            g_camera := { w.g_camera with last_y := toFloat y, last_x := toFloat x } })
    ∧ (∀ x2 : ℚ, (MousePosCallback cam x2 y w).calls = (MousePosCallback cam x y w).calls) := by
  have hr := MousePosCallback_right cam x y w hp hb
  refine ⟨fun h => ?_, fun h => ?_, fun h => ?_, fun x2 => ?_⟩
  · have e : MousePosCallback cam x y w
        = { w with
            g_camera := { cam.zoom 1 w.g_camera with last_y := toFloat y, last_x := toFloat x }
            calls := w.calls ++ [Call.zoom 1] } := by
      rw [hr]
      simp [rightDrag, h, World.camera]
    exact ⟨by rw [e], e⟩
  · have e : MousePosCallback cam x y w
        = { w with
            g_camera :=
              { cam.zoom (-1) w.g_camera with last_y := toFloat y, last_x := toFloat x }
            calls := w.calls ++ [Call.zoom (-1)] } := by
      rw [hr]
      simp [rightDrag, h, not_lt_of_gt h, World.camera]
    exact ⟨by rw [e], e⟩
  · have e : MousePosCallback cam x y w
        = { w with
            g_camera := { w.g_camera with last_y := toFloat y, last_x := toFloat x } } := by
      rw [hr]
      simp [rightDrag, h]
    exact ⟨by rw [e], e⟩
  · rw [hr, MousePosCallback_right cam x2 y w hp hb]

/-- Witness for C12: with the right button held and last cursor (0, 0), a
move up to (3, -1) zooms in and a move to (3, 0) makes no call. -/
theorem right_drag_zooms_witness :
    (MousePosCallback idleCamera 3 (-1) (MouseButtonCallback GLFW_MOUSE_BUTTON_RIGHT GLFW_PRESS 0 (initWorld none))).calls = (MouseButtonCallback GLFW_MOUSE_BUTTON_RIGHT GLFW_PRESS 0 (initWorld none)).calls ++ [Call.zoom 1]
    ∧ (MousePosCallback idleCamera 3 0 (MouseButtonCallback GLFW_MOUSE_BUTTON_RIGHT GLFW_PRESS 0 (initWorld none))).calls = (MouseButtonCallback GLFW_MOUSE_BUTTON_RIGHT GLFW_PRESS 0 (initWorld none)).calls := by
  have h1 := ((right_drag_zooms idleCamera 3 (-1) (MouseButtonCallback GLFW_MOUSE_BUTTON_RIGHT GLFW_PRESS 0 (initWorld none)) rfl rfl).1
    (by show (-1 : ℚ) < 0; norm_num)).1
  have h2 := ((right_drag_zooms idleCamera 3 0 (MouseButtonCallback GLFW_MOUSE_BUTTON_RIGHT GLFW_PRESS 0 (initWorld none)) rfl rfl).2.2.1 rfl).1
  exact ⟨h1, h2⟩

theorem middleDragY_calls (cam : CameraMethods) (y : ℚ) (w : World)
    (hup : ∀ d c, (cam.strafe_up d c).last_x = c.last_x) :
    (middleDragY cam y w).calls
      = w.calls ++ (if w.g_camera.last_y > y then [Call.strafe_up 1]
          else if w.g_camera.last_y < y then [Call.strafe_up (-1)] else [])
    ∧ (middleDragY cam y w).g_camera.last_x = w.g_camera.last_x := by
  unfold middleDragY
  by_cases h1 : w.g_camera.last_y > y
  · simp [h1, World.camera, hup]
  · by_cases h2 : w.g_camera.last_y < y
    · simp [h1, h2, World.camera, hup]
    · simp [h1, h2]

theorem middleDragX_calls (cam : CameraMethods) (x : ℚ) (w : World) :
    (middleDragX cam x w).calls
      = w.calls ++ (if w.g_camera.last_x > x then [Call.strafe_tangent (-1)]
          else if w.g_camera.last_x < x then [Call.strafe_tangent 1] else []) := by
  unfold middleDragX
  by_cases h1 : w.g_camera.last_x > x
  · simp [h1, World.camera]
  · by_cases h2 : w.g_camera.last_x < x
    · simp [h1, h2, World.camera]
    · simp [h1, h2]

/-- C13: a pointer move to (x, y) while a button is pressed and the active
button is the middle one, for a camera whose `strafe_up` leaves the last
cursor's x as it is: the calls made are, in this order, `strafe_up(+1)` if
`last_y > y` or `strafe_up(-1)` if `last_y < y` (none if equal), then
`strafe_tangent(-1)` if `last_x > x` or `strafe_tangent(+1)` if `last_x < x`
(none if equal), and nothing else; so a move on both axes makes exactly one
`strafe_up` call followed by exactly one `strafe_tangent` call, and an event
with no movement makes none. -/
theorem middle_drag_strafes (cam : CameraMethods) (x y : ℚ) (w : World)
    (hp : w.g_mouse_pressed = true) (hb : w.g_current_button = GLFW_MOUSE_BUTTON_MIDDLE)
    (hup : ∀ d c, (cam.strafe_up d c).last_x = c.last_x) :
    (MousePosCallback cam x y w).calls
      = w.calls
        ++ (if w.g_camera.last_y > y then [Call.strafe_up 1]
            else if w.g_camera.last_y < y then [Call.strafe_up (-1)] else [])
        ++ (if w.g_camera.last_x > x then [Call.strafe_tangent (-1)]
            else if w.g_camera.last_x < x then [Call.strafe_tangent 1] else [])
    ∧ (w.g_camera.last_y ≠ y → w.g_camera.last_x ≠ x →
        (MousePosCallback cam x y w).calls
          = w.calls ++ [Call.strafe_up (if w.g_camera.last_y > y then 1 else -1),
              Call.strafe_tangent (if w.g_camera.last_x > x then -1 else 1)])
    ∧ (w.g_camera.last_y = y → w.g_camera.last_x = x →
        (MousePosCallback cam x y w).calls = w.calls) := by
  have hy := middleDragY_calls cam y w hup
  have hx := middleDragX_calls cam x (middleDragY cam y w)
  have hcalls : (MousePosCallback cam x y w).calls
      = w.calls
        ++ (if w.g_camera.last_y > y then [Call.strafe_up 1]
            else if w.g_camera.last_y < y then [Call.strafe_up (-1)] else [])
        ++ (if w.g_camera.last_x > x then [Call.strafe_tangent (-1)]
            else if w.g_camera.last_x < x then [Call.strafe_tangent 1] else []) := by
    rw [MousePosCallback_middle cam x y w hp hb]
    show (middleDragX cam x (middleDragY cam y w)).calls = _
    rw [hx, hy.1, hy.2]
  refine ⟨hcalls, fun hne_y hne_x => ?_, fun he_y he_x => ?_⟩
  · rw [hcalls]
    rcases lt_or_gt_of_ne hne_y with h1 | h1 <;> rcases lt_or_gt_of_ne hne_x with h2 | h2 <;>
      simp [h1, h2, not_lt_of_gt h1, not_lt_of_gt h2]
  · rw [hcalls]
    simp [he_y, he_x]

/-- Witness for C13: with the middle button held and last cursor (0, 0), a
move to (3, -1) strafes up and then along the tangent. -/
theorem middle_drag_strafes_witness :
    (MousePosCallback idleCamera 3 (-1)
        (MouseButtonCallback GLFW_MOUSE_BUTTON_MIDDLE GLFW_PRESS 0 (initWorld none))).calls
      = [Call.strafe_up 1, Call.strafe_tangent 1] := by
  have h := (middle_drag_strafes idleCamera 3 (-1)
    (MouseButtonCallback GLFW_MOUSE_BUTTON_MIDDLE GLFW_PRESS 0 (initWorld none)) rfl rfl
    (fun _ _ => rfl)).2.1
    (by show (0 : ℚ) ≠ -1; norm_num) (by show (0 : ℚ) ≠ 3; norm_num)
  have hy : (MouseButtonCallback GLFW_MOUSE_BUTTON_MIDDLE GLFW_PRESS 0
      (initWorld none)).g_camera.last_y = 0 := rfl
  have hx : (MouseButtonCallback GLFW_MOUSE_BUTTON_MIDDLE GLFW_PRESS 0
      (initWorld none)).g_camera.last_x = 0 := rfl
  have hc : (MouseButtonCallback GLFW_MOUSE_BUTTON_MIDDLE GLFW_PRESS 0
      (initWorld none)).calls = [] := rfl
  rw [hy, hx, hc] at h
  norm_num at h
  exact h

/-! ## Default camera -/

/-- C14: the default-constructed camera has `look = (0, 0, -1)` and
`up = (0, 1, 0)`, both of unit length (squared length 1), orthogonal, with
cross product (1, 0, 0), which is not zero, so they are not parallel;
`distance = 3 > 0`; and `eye = (0, 0, distance)`, so that
`eye + distance * look` is the origin. -/
theorem default_camera_invariant :
    ({} : Camera).look_ = ⟨0, 0, -1⟩
    ∧ ({} : Camera).up_ = ⟨0, 1, 0⟩
    ∧ ({} : Camera).look_.dot ({} : Camera).look_ = 1
    ∧ ({} : Camera).up_.dot ({} : Camera).up_ = 1
    ∧ ({} : Camera).look_.dot ({} : Camera).up_ = 0
    ∧ ({} : Camera).look_.cross ({} : Camera).up_ = ⟨1, 0, 0⟩
    ∧ ({} : Camera).look_.cross ({} : Camera).up_ ≠ ⟨0, 0, 0⟩
    ∧ ({} : Camera).camera_distance_ = 3
    ∧ 0 < ({} : Camera).camera_distance_
    ∧ ({} : Camera).eye_ = ⟨0, 0, ({} : Camera).camera_distance_⟩
    ∧ ({} : Camera).eye_.add (({} : Camera).look_.scale ({} : Camera).camera_distance_)
        = ⟨0, 0, 0⟩ := by
  refine ⟨rfl, rfl, ?_, ?_, ?_, ?_, ?_, rfl, ?_, rfl, ?_⟩
  · norm_num [vec3.dot]
  · norm_num [vec3.dot]
  · norm_num [vec3.dot]
  · norm_num [vec3.cross]
  · norm_num [vec3.cross]
  · norm_num
  · norm_num [vec3.add, vec3.scale]

/-! ## Ocean grid -/

theorem oceanCell_eq (i k : Nat) (V : List vec4) (I : List uvec4) :
    oceanCell i k (V, I) = (V ++ cellVertices i k, I ++ [patchAt V.length]) := by
  simp [oceanCell, cellVertices, patchAt]

theorem cellVertices_length (i k : Nat) : (cellVertices i k).length = 4 := rfl

theorem rowVertices_length (i : Nat) (ks : List Nat) :
    (rowVertices i ks).length = 4 * ks.length := by
  induction ks with
  | nil => rfl
  | cons k ks ih =>
    simp only [rowVertices, List.length_append, cellVertices_length, ih, List.length_cons]
    omega

theorem gridVertices_length (rows : List Nat) :
    (gridVertices rows).length = 64 * rows.length := by
  induction rows with
  | nil => rfl
  | cons i rows ih =>
    simp only [gridVertices, List.length_append, rowVertices_length, ih, List.length_cons,
      List.length_range]
    omega

theorem patchesFrom_length (c : Nat) : ∀ n, (patchesFrom n c).length = c := by
  induction c with
  | zero => intro n; rfl
  | succ c ih => intro n; simp [patchesFrom, ih]

theorem patchesFrom_add (a : Nat) :
    ∀ n b, patchesFrom n (a + b) = patchesFrom n a ++ patchesFrom (n + 4 * a) b := by
  induction a with
  | zero => intro n b; simp [patchesFrom]
  | succ a ih =>
    intro n b
    rw [show a + 1 + b = (a + b) + 1 by omega]
    simp only [patchesFrom, ih, List.cons_append]
    rw [show n + 4 + 4 * a = n + 4 * (a + 1) by omega]

theorem row_fold (i : Nat) (ks : List Nat) :
    ∀ (V : List vec4) (I : List uvec4),
      ks.foldl (fun st k => oceanCell i k st) (V, I)
        = (V ++ rowVertices i ks, I ++ patchesFrom V.length ks.length) := by
  induction ks with
  | nil => intro V I; simp [rowVertices, patchesFrom]
  | cons k ks ih =>
    intro V I
    rw [List.foldl_cons, oceanCell_eq, ih]
    simp [rowVertices, patchesFrom, cellVertices_length]

theorem grid_fold (rows : List Nat) :
    ∀ (V : List vec4) (I : List uvec4),
      rows.foldl (fun st i => (List.range 16).foldl (fun st k => oceanCell i k st) st) (V, I)
        = (V ++ gridVertices rows, I ++ patchesFrom V.length (16 * rows.length)) := by
  induction rows with
  | nil => intro V I; simp [gridVertices, patchesFrom]
  | cons i rows ih =>
    intro V I
    simp only [List.foldl_cons]
    rw [row_fold, ih]
    simp only [gridVertices, List.length_append, rowVertices_length, List.length_range,
      List.length_cons, List.append_assoc]
    rw [show 16 * (rows.length + 1) = 16 + 16 * rows.length by omega, patchesFrom_add]

theorem CreateOcean_eq (V : List vec4) (I : List uvec4) :
    CreateOcean V I
      = (V ++ gridVertices (List.range 16), I ++ patchesFrom V.length 256) := by
  unfold CreateOcean
  rw [grid_fold]
  simp

theorem patchesFrom_getElem (c : Nat) :
    ∀ n j, j < c → (patchesFrom n c)[j]? = some (patchAt (n + 4 * j)) := by
  induction c with
  | zero => intro n j hj; omega
  | succ c ih =>
    intro n j hj
    cases j with
    | zero => simp [patchesFrom]
    | succ j =>
      simp only [patchesFrom, List.getElem?_cons_succ]
      rw [ih (n + 4) j (by omega)]
      rw [show n + 4 + 4 * j = n + 4 * (j + 1) by omega]

theorem patchesFrom_mem (c : Nat) :
    ∀ n q, q ∈ patchesFrom n c → ∃ j, j < c ∧ q = patchAt (n + 4 * j) := by
  induction c with
  | zero => intro n q hq; simp [patchesFrom] at hq
  | succ c ih =>
    intro n q hq
    simp only [patchesFrom, List.mem_cons] at hq
    rcases hq with rfl | hq
    · exact ⟨0, by omega, rfl⟩
    · obtain ⟨j, hj, rfl⟩ := ih (n + 4) q hq
      exact ⟨j + 1, by omega, by rw [show n + 4 + 4 * j = n + 4 * (j + 1) by omega]⟩

theorem patchAt_eq_quad (m : Nat) (h : m + 3 < UINT_MOD) : patchAt m = quad m := by
  unfold patchAt quad
  rw [Nat.mod_eq_of_lt (by omega : m < UINT_MOD), Nat.mod_eq_of_lt (by omega : m + 1 < UINT_MOD),
    Nat.mod_eq_of_lt h, Nat.mod_eq_of_lt (by omega : m + 2 < UINT_MOD)]

theorem rowVertices_block (i : Nat) (ks : List Nat) :
    ∀ j k, ks[j]? = some k →
      ((rowVertices i ks).drop (4 * j)).take 4 = cellVertices i k := by
  induction ks with
  | nil => intro j k h; simp at h
  | cons k0 ks ih =>
    intro j k h
    cases j with
    | zero =>
      simp only [List.getElem?_cons_zero, Option.some.injEq] at h
      subst h
      simp only [rowVertices, Nat.mul_zero, List.drop_zero]
      rw [List.take_append_of_le_length (by rw [cellVertices_length])]
      exact List.take_of_length_le (by rw [cellVertices_length])
    | succ j =>
      simp only [List.getElem?_cons_succ] at h
      simp only [rowVertices]
      rw [show 4 * (j + 1) = (cellVertices i k0).length + 4 * j by
        rw [cellVertices_length]; omega]
      rw [List.drop_append]
      exact ih j k h

theorem gridVertices_block (rows : List Nat) :
    ∀ a i b, rows[a]? = some i → b < 16 →
      ((gridVertices rows).drop (4 * (16 * a + b))).take 4 = cellVertices i b := by
  induction rows with
  | nil => intro a i b h; simp at h
  | cons i0 rows ih =>
    intro a i b h hb
    cases a with
    | zero =>
      simp only [List.getElem?_cons_zero, Option.some.injEq] at h
      subst h
      simp only [gridVertices, Nat.mul_zero, Nat.zero_add]
      have hlen : (rowVertices i0 (List.range 16)).length = 64 := by
        rw [rowVertices_length, List.length_range]
      rw [List.drop_append_of_le_length (by rw [hlen]; omega)]
      rw [List.take_append_of_le_length (by rw [List.length_drop, hlen]; omega)]
      exact rowVertices_block i0 (List.range 16) b b (by simp [hb])
    | succ a =>
      simp only [List.getElem?_cons_succ] at h
      simp only [gridVertices]
      rw [show 4 * (16 * (a + 1) + b)
          = (rowVertices i0 (List.range 16)).length + 4 * (16 * a + b) by
        rw [rowVertices_length, List.length_range]; omega]
      rw [List.drop_append]
      exact ih a i b h hb

theorem rowVertices_mem (i : Nat) (ks : List Nat) :
    ∀ v, v ∈ rowVertices i ks → ∃ k, k ∈ ks ∧ v ∈ cellVertices i k := by
  induction ks with
  | nil => intro v hv; simp [rowVertices] at hv
  | cons k ks ih =>
    intro v hv
    simp only [rowVertices, List.mem_append] at hv
    rcases hv with hv | hv
    · exact ⟨k, List.mem_cons_self k ks, hv⟩
    · obtain ⟨k2, hk2, hv2⟩ := ih v hv
      exact ⟨k2, List.mem_cons_of_mem k hk2, hv2⟩

theorem gridVertices_mem (rows : List Nat) :
    ∀ v, v ∈ gridVertices rows →
      ∃ i k, i ∈ rows ∧ k < 16 ∧ v ∈ cellVertices i k := by
  induction rows with
  | nil => intro v hv; simp [gridVertices] at hv
  | cons i rows ih =>
    intro v hv
    simp only [gridVertices, List.mem_append] at hv
    rcases hv with hv | hv
    · obtain ⟨k, hk, hv2⟩ := rowVertices_mem i (List.range 16) v hv
      exact ⟨i, k, List.mem_cons_self i rows, List.mem_range.1 hk, hv2⟩
    · obtain ⟨i2, k, hi2, hk, hv2⟩ := ih v hv
      exact ⟨i2, k, List.mem_cons_of_mem i hi2, hk, hv2⟩

theorem cellVertices_bounds (i k : Nat) (hi : i < 16) (hk : k < 16) (v : vec4)
    (hv : v ∈ cellVertices i k) :
    v.y = -2 ∧ v.w = 1 ∧ -20 ≤ v.x ∧ v.x ≤ 20 ∧ -20 ≤ v.z ∧ v.z ≤ 20 := by
  have hi0 : (0 : ℚ) ≤ (i : ℚ) := Nat.cast_nonneg i
  have hk0 : (0 : ℚ) ≤ (k : ℚ) := Nat.cast_nonneg k
  have hi1 : (i : ℚ) ≤ 15 := by exact_mod_cast Nat.le_of_lt_succ hi
  have hk1 : (k : ℚ) ≤ 15 := by exact_mod_cast Nat.le_of_lt_succ hk
  simp only [cellVertices, List.mem_cons, List.mem_singleton, List.not_mem_nil, or_false] at hv
  rcases hv with rfl | rfl | rfl | rfl <;>
    refine ⟨rfl, rfl, ?_, ?_, ?_, ?_⟩ <;> push_cast <;> norm_num <;> linarith

/-- C16, as stated, fails: called on a vertex list of length 4294967296
(2^32), `offset` (a `uint32_t`) starts at 0, so the first patch written is
(0, 1, 3, 2), whose indices are below the length of the list passed in. -/
theorem CreateOcean_offset_wraps :
    (List.replicate 4294967296 (⟨0, 0, 0, 1⟩ : vec4)).length = 4294967296
    ∧ (CreateOcean (List.replicate 4294967296 ⟨0, 0, 0, 1⟩) []).2[0]? = some ⟨0, 1, 3, 2⟩
    ∧ ¬ (∀ q ∈ (CreateOcean (List.replicate 4294967296 ⟨0, 0, 0, 1⟩) []).2,
          (List.replicate 4294967296 (⟨0, 0, 0, 1⟩ : vec4)).length ≤ q.x) := by
  have h0 : (CreateOcean (List.replicate 4294967296 ⟨0, 0, 0, 1⟩) []).2[0]?
      = some ⟨0, 1, 3, 2⟩ := by
    rw [CreateOcean_eq]
    simp only [List.length_replicate, List.nil_append]
    rw [patchesFrom_getElem 256 4294967296 0 (by omega)]
    simp [patchAt, UINT_MOD]
  refine ⟨List.length_replicate _ _, h0, ?_⟩
  intro hall
  have hmem := List.getElem?_mem h0
  have hle := hall _ hmem
  rw [List.length_replicate] at hle
  exact absurd hle (by decide)

/-- C16, amended: called on empty lists, `CreateOcean` produces 1024 vertices
and 256 patches; patch number j is `(4j, 4j+1, 4j+3, 4j+2)` and the vertices
at positions 4j, ..., 4j+3 are the four corners pushed for cell
(j / 16, j % 16), so that the patch goes around the cell; every index is
below 1024 and the four indices of a patch are pairwise distinct; every
vertex has y = -2, w = 1 and x, z in [-20, 20].  Called on a vertex list of
length n with n + 1024 at most 2^32, it pushes 1024 vertices and appends 256
patches to the index list, every index of which is at least n and below the
new vertex count n + 1024. -/
theorem CreateOcean_mesh (V : List vec4) (I : List uvec4) :
    ((CreateOcean [] []).1.length = 1024 ∧ (CreateOcean [] []).2.length = 256)
    ∧ (∀ j, j < 256 →
        (CreateOcean [] []).2[j]? = some (quad (4 * j))
        ∧ ((CreateOcean [] []).1.drop (4 * j)).take 4 = cellVertices (j / 16) (j % 16))
    ∧ (∀ q ∈ (CreateOcean [] []).2,
        (q.x < 1024 ∧ q.y < 1024 ∧ q.z < 1024 ∧ q.w < 1024)
        ∧ q.x ≠ q.y ∧ q.x ≠ q.z ∧ q.x ≠ q.w ∧ q.y ≠ q.z ∧ q.y ≠ q.w ∧ q.z ≠ q.w)
    ∧ (∀ v ∈ (CreateOcean [] []).1,
        v.y = -2 ∧ v.w = 1 ∧ -20 ≤ v.x ∧ v.x ≤ 20 ∧ -20 ≤ v.z ∧ v.z ≤ 20)
    ∧ (V.length + 1024 ≤ UINT_MOD →
        (CreateOcean V I).1.length = V.length + 1024
        ∧ ∃ emitted : List uvec4,
            (CreateOcean V I).2 = I ++ emitted
            ∧ emitted.length = 256
            ∧ ∀ q ∈ emitted,
                (V.length ≤ q.x ∧ q.x < V.length + 1024)
                ∧ (V.length ≤ q.y ∧ q.y < V.length + 1024)
                ∧ (V.length ≤ q.z ∧ q.z < V.length + 1024)
                ∧ (V.length ≤ q.w ∧ q.w < V.length + 1024)) := by
  have hM : UINT_MOD = 4294967296 := rfl
  refine ⟨?_, ?_, ?_, ?_, ?_⟩
  · rw [CreateOcean_eq]
    simp [gridVertices_length, patchesFrom_length]
  · intro j hj
    rw [CreateOcean_eq]
    simp only [List.nil_append, List.length_nil]
    constructor
    · rw [patchesFrom_getElem 256 0 j hj, Nat.zero_add,
        patchAt_eq_quad (4 * j) (by rw [hM]; omega)]
    · have hb := gridVertices_block (List.range 16) (j / 16) (j / 16) (j % 16)
        (by
          rw [List.getElem?_range]
          omega)
        (Nat.mod_lt j (by norm_num))
      rw [Nat.div_add_mod] at hb
      exact hb
  · intro q hq
    rw [CreateOcean_eq] at hq
    simp only [List.nil_append, List.length_nil] at hq
    obtain ⟨j, hj, rfl⟩ := patchesFrom_mem 256 0 q hq
    rw [Nat.zero_add, patchAt_eq_quad (4 * j) (by rw [hM]; omega)]
    simp only [quad]
    omega
  · intro v hv
    rw [CreateOcean_eq] at hv
    simp only [List.nil_append] at hv
    obtain ⟨i, k, hi, hk, hvc⟩ := gridVertices_mem (List.range 16) v hv
    exact cellVertices_bounds i k (List.mem_range.1 hi) hk v hvc
  · intro hn
    rw [CreateOcean_eq]
    refine ⟨by simp [gridVertices_length], patchesFrom V.length 256, rfl,
      patchesFrom_length 256 V.length, ?_⟩
    intro q hq
    obtain ⟨j, hj, rfl⟩ := patchesFrom_mem 256 V.length q hq
    rw [patchAt_eq_quad (V.length + 4 * j) (by rw [hM] at *; omega)]
    simp only [quad]
    omega

/-- Witness for C16: called on a list that already holds one vertex, the
ocean grid pushes 1024 more and every index it writes lies in 1, ..., 1024. -/
theorem CreateOcean_mesh_witness :
    (CreateOcean [⟨0, 0, 0, 1⟩] []).1.length = [(⟨0, 0, 0, 1⟩ : vec4)].length + 1024
    ∧ ∃ emitted : List uvec4,
        (CreateOcean [⟨0, 0, 0, 1⟩] []).2 = [] ++ emitted
        ∧ emitted.length = 256
        ∧ ∀ q ∈ emitted,
            ([(⟨0, 0, 0, 1⟩ : vec4)].length ≤ q.x
              ∧ q.x < [(⟨0, 0, 0, 1⟩ : vec4)].length + 1024)
            ∧ ([(⟨0, 0, 0, 1⟩ : vec4)].length ≤ q.y
              ∧ q.y < [(⟨0, 0, 0, 1⟩ : vec4)].length + 1024)
            ∧ ([(⟨0, 0, 0, 1⟩ : vec4)].length ≤ q.z
              ∧ q.z < [(⟨0, 0, 0, 1⟩ : vec4)].length + 1024)
            ∧ ([(⟨0, 0, 0, 1⟩ : vec4)].length ≤ q.w
              ∧ q.w < [(⟨0, 0, 0, 1⟩ : vec4)].length + 1024) :=
  (CreateOcean_mesh [⟨0, 0, 0, 1⟩] []).2.2.2.2 (by decide)

end Menger
